import Mathlib

/-!
Verification of image_processing-stereo: dense stereo pipeline, image buffers,
distance images and PGM input.

A shallow embedding of `src/densestereo.cpp`, `src/image.h` and
`src/dense_stereo_types.h`, followed by the properties proved about it.

Conventions of the embedding

* C++ `float`/`double` values are modelled by `Flt`: a finite value is an exact
  rational, and the three IEEE specials (`+inf`, `-inf`, `NaN`) are explicit
  constructors.  Arithmetic on finite values is exact.  In the normalisation
  loop the only rounded operation is the `double` division
  `255.0 * d / disp_max` (the product of the 8-bit constant and a 24-bit
  `float` mantissa is exact in `double`), and its result is only observed
  through truncation to an integer; a quotient of that shape which is not an
  integer is further from every integer than half a `double` ulp, so the
  truncation of the rounded quotient is the truncation of the exact one.
* A conversion whose result C++ leaves undefined (`NaN` or an out-of-range
  value converted to `uint8_t`, an out-of-bounds access) is `none`.
* An `int` value is an `Int`; a product formed in `int` is `intMul`, which has
  no result when the mathematical product is not representable (signed
  overflow is undefined).
-/

namespace DenseStereo

/-! ## Floating-point values -/

/-- A C++ `float` or `double` value: a finite number or one of the IEEE specials. -/
inductive Flt where
  | fin (q : ℚ)
  | pinf
  | ninf
  | nan
  deriving DecidableEq

namespace Flt

/-- IEEE `a < b`; every comparison with `NaN` is false. -/
def lt : Flt → Flt → Bool
  | fin a, fin b => decide (a < b)
  | fin _, pinf => true
  | ninf, fin _ => true
  | ninf, pinf => true
  | _, _ => false

/-- IEEE `a > b`. -/
def gt (a b : Flt) : Bool := lt b a

/-- Sign of a value that is not `NaN`: `-1`, `0` or `1`. -/
def sgn : Flt → Int
  | fin q => if q < 0 then -1 else if q = 0 then 0 else 1
  | pinf => 1
  | ninf => -1
  | nan => 0

/-- The infinity of the given sign, `NaN` for sign `0`. -/
def ofSign (s : Int) : Flt :=
  if s = 0 then nan else if 0 < s then pinf else ninf

/-- IEEE multiplication `a * b`. -/
def mul : Flt → Flt → Flt
  | nan, _ => nan
  | _, nan => nan
  | fin a, fin b => fin (a * b)
  | a, b => ofSign (sgn a * sgn b)

/-- IEEE division `a / b`.  A zero divisor is the positive zero: the only
divisor in this program is `disp_max`, which starts as `0` and is otherwise a
sample that compared greater than it. -/
def div : Flt → Flt → Flt
  | nan, _ => nan
  | _, nan => nan
  | fin a, fin b => if b = 0 then ofSign (sgn (fin a)) else fin (a / b)
  | fin _, _ => fin 0
  | a, fin b => ofSign (sgn a * (if b < 0 then -1 else 1))
  | _, _ => nan

/-- The function `std::max(a, b)`, which is `(a < b) ? b : a`. -/
def max (a b : Flt) : Flt := if lt a b then b else a

/-- Truncation of a rational towards zero. -/
def trunc (q : ℚ) : Int := if 0 ≤ q then ⌊q⌋ else -⌊-q⌋

/-- The cast `(uint8_t)x` of a `double`: truncation towards zero, defined only
when the truncated value is representable in 8 bits. -/
def toUint8 : Flt → Option Nat
  | fin q => if 0 ≤ trunc q ∧ trunc q ≤ 255 then some (trunc q).toNat else none
  | _ => none

end Flt

/-! ## `DenseStereo::process_FramePair` / `process_images`: disparity scaling -/

/-- One iteration of the scan loop of `densestereo.cpp` lines 100-103 (and 175-178). -/
def dispMaxStep (D1_data D2_data : Nat → Flt) (i : Nat) (disp_max : Flt) : Flt :=
  let disp_max := if Flt.gt (D1_data i) disp_max then D1_data i else disp_max
  if Flt.gt (D2_data i) disp_max then D2_data i else disp_max

/-- Value of `disp_max` after the first `k` iterations of
`for (i = 0; i < width*height; i++)`, starting from `float disp_max = 0`. -/
def dispMaxLoop (D1_data D2_data : Nat → Flt) : Nat → Flt
  | 0 => Flt.fin 0
  | k + 1 => dispMaxStep D1_data D2_data k (dispMaxLoop D1_data D2_data k)

/-- The expression `(uint8_t)max(255.0*d/disp_max,0.0)` of lines 109-110 (and 184-185). -/
def scaleSample (d disp_max : Flt) : Option Nat :=
  Flt.toUint8 (Flt.max (Flt.div (Flt.mul (Flt.fin 255) d) disp_max) (Flt.fin 0))

/-- Contents of `D1->data[0..k)` and `D2->data[0..k)` after the first `k`
iterations of the copy loop of lines 108-111 (and 183-186); `none` when some
conversion had no defined result. -/
def copyLoop (D1_data D2_data : Nat → Flt) (disp_max : Flt) :
    Nat → Option (List Nat × List Nat)
  | 0 => some ([], [])
  | k + 1 =>
    match copyLoop D1_data D2_data disp_max k with
    | none => none
    | some (o1, o2) =>
      match scaleSample (D1_data k) disp_max, scaleSample (D2_data k) disp_max with
      | some a, some b => some (o1 ++ [a], o2 ++ [b])
      | _, _ => none

/-- Scan loop followed by copy loop over `n = width*height` samples: the
normalisation step shared by `process_FramePair` and `process_images`. -/
def normalize (D1_data D2_data : Nat → Flt) (n : Nat) : Option (List Nat × List Nat) :=
  copyLoop D1_data D2_data (dispMaxLoop D1_data D2_data n) n

/-- The formula of the specification, `clamp(255*d/M, 0, 255)` converted to 8 bits. -/
def clampFormula (d M : ℚ) : Nat :=
  (Flt.trunc (Max.max 0 (Min.min 255 (255 * d / M)))).toNat

/-! ## Machine integers -/

/-- Constant `INT_MAX` of a 32-bit `int`. -/
def INT_MAX : Int := 2147483647

/-- Constant `INT_MIN` of a 32-bit `int`. -/
def INT_MIN : Int := -2147483648

/-- The product `a * b` of two `int` values, formed in `int`: `none` when the
result is not representable, which C++ leaves undefined. -/
def intMul (a b : Int) : Option Int :=
  if INT_MIN ≤ a * b ∧ a * b ≤ INT_MAX then some (a * b) else none

/-! ## `image<T>` (image.h) over an explicit free store -/

/-- A pointer: an array of the free store and an element offset into it. -/
structure Ptr where
  block : Nat
  off : Nat
  deriving DecidableEq

/-- Pointer arithmetic `p + i`. -/
def Ptr.add (p : Ptr) (i : Nat) : Ptr := ⟨p.block, p.off + i⟩

/-- The free store: the arrays obtained from `new T[n]`, in allocation order. -/
abbrev Store (T : Type) := List (List T)

/-- Allocation `new T[cells.length]` with the given initial contents. -/
def Store.alloc {T : Type} (s : Store T) (cells : List T) : Store T × Ptr :=
  (s ++ [cells], ⟨s.length, 0⟩)

/-- Dereference `*p`; `none` outside an allocated array. -/
def Store.read {T : Type} (s : Store T) (p : Ptr) : Option T :=
  match s[p.block]? with
  | some cells => cells[p.off]?
  | none => none

/-- Assignment `*p = v`; `none` outside an allocated array. -/
def Store.write {T : Type} (s : Store T) (p : Ptr) (v : T) : Option (Store T) :=
  match s[p.block]? with
  | some cells => if p.off < cells.length then some (s.set p.block (cells.set p.off v)) else none
  | none => none

/-- The `n` elements starting at `p` (source side of `memcpy`). -/
def Store.readN {T : Type} (s : Store T) (p : Ptr) (n : Nat) : Option (List T) :=
  match s[p.block]? with
  | some cells => if p.off + n ≤ cells.length then some ((cells.drop p.off).take n) else none
  | none => none

/-- Overwrite the `vs.length` elements starting at `p` (destination side of
`memcpy`, `istream::read`). -/
def Store.writeN {T : Type} (s : Store T) (p : Ptr) (vs : List T) : Option (Store T) :=
  match s[p.block]? with
  | some cells =>
    if p.off + vs.length ≤ cells.length then
      some (s.set p.block (cells.take p.off ++ vs ++ cells.drop (p.off + vs.length)))
    else none
  | none => none

/-- The function `memcpy(dst, src, n)` on elements of the store. -/
def memcpy {T : Type} (s : Store T) (dst src : Ptr) (n : Nat) : Option (Store T) :=
  match s.readN src n with
  | some vs => s.writeN dst vs
  | none => none

/-- The class `image<T>`: private `w`, `h`, public `data` and the row pointers
`access` (one pointer per row). -/
structure image where
  w : Int
  h : Int
  data : Ptr
  access : List Ptr
  deriving DecidableEq

/-- Accessor `width()`. -/
def image.width (im : image) : Int := im.w

/-- Accessor `height()`. -/
def image.height (im : image) : Int := im.h

/-- Constructor `image<T>::image(width, height, init)`, image.h lines 82-95.
The contents of a freshly allocated array are the indeterminate values `junk`.
No image is constructed (`none`) when the `int` product `w * h` overflows, or
when `w * h` or `h` is negative, in which case `new T[w * h]` or `new T*[h]`
throws. -/
def image.create {T : Type} [Zero T] (s : Store T) (width height : Int) (init : Bool)
    (junk : Nat → T) : Option (Store T × image) :=
  let w := width
  let h := height
  match intMul w h with
  | none => none
  | some n =>
    if 0 ≤ n ∧ 0 ≤ h then
      let fresh := (List.range n.toNat).map junk
      let (s1, data) := s.alloc fresh
      let access := (List.range h.toNat).map (fun (i : Nat) => data.add ((i : Int) * w).toNat)
      let s2 := if init then s1.set data.block (List.replicate n.toNat 0) else s1
      some (s2, { w := w, h := h, data := data, access := access })
    else none

/-- Macro `imPtr(im, x, y)`, the address `&(im->access[y][x])`. -/
def imPtr (im : image) (x y : Nat) : Option Ptr :=
  match im.access[y]? with
  | some row => some (row.add x)
  | none => none

/-- Macro `imRef(im, x, y)` used as a value: `im->access[y][x]`. -/
def imRef {T : Type} (s : Store T) (im : image) (x y : Nat) : Option T :=
  match imPtr im x y with
  | some p => s.read p
  | none => none

/-- Macro `imRef(im, x, y) = v` used as an assignment target. -/
def imSet {T : Type} (s : Store T) (im : image) (x y : Nat) (v : T) : Option (Store T) :=
  match imPtr im x y with
  | some p => s.write p v
  | none => none

/-- Method `image<T>::copy()`, image.h lines 110-114. -/
def image.copy {T : Type} [Zero T] (s : Store T) (im : image) (junk : Nat → T) :
    Option (Store T × image) :=
  match image.create s im.w im.h false junk, intMul im.w im.h with
  | some (s1, im1), some n =>
    match memcpy s1 im1.data im.data n.toNat with
    | some s2 => some (s2, im1)
    | none => none
  | _, _ => none

/-- Class invariant of `image<T>` relative to a store: what the constructor
establishes and every member function relies on.  The sample count `w * h` is
the `int` product the constructor formed. -/
def image.wf {T : Type} (s : Store T) (im : image) : Prop :=
  0 ≤ im.w ∧ 0 ≤ im.h ∧ im.data.off = 0 ∧
  (∃ cells, s[im.data.block]? = some cells ∧ cells.length = (im.w * im.h).toNat) ∧
  im.access = (List.range im.h.toNat).map
    (fun (i : Nat) => im.data.add ((i : Int) * im.w).toNat) ∧
  im.w * im.h ≤ INT_MAX

/-! ## `cv::Mat`, the external collaborators and `DenseStereo::process_FramePair` -/

/-- Pixel type of a `cv::Mat` (`inImage.type()`). -/
inductive MatType where
  | CV_8UC1
  | CV_16UC1
  | CV_8UC3
  | CV_16UC3
  | other (code : Nat)
  deriving DecidableEq

/-- Depth constants of OpenCV used as the `rtype` argument of `convertTo`. -/
inductive Depth where
  | CV_8U
  | CV_16U
  deriving DecidableEq

/-- Conversion codes of OpenCV used as the `code` argument of `cvtColor`. -/
inductive ColorCode where
  | CV_BGR2GRAY
  | CV_RGB2GRAY
  deriving DecidableEq

/-- The parts of a `cv::Mat` (or `IplImage`) the program looks at.  `data` holds
the channel samples in row-major order; for an 8-bit single-channel matrix
these are its bytes. -/
structure Mat where
  type : MatType
  width : Int
  height : Int
  data : List Nat
  deriving DecidableEq

/-- Operations of the external libraries (OpenCV, `ImageProcessing`, libelas),
taken as parameters. -/
structure Extern where
  /-- Method `ImageProcessing::preprocessImage(image, right_image, cp)` with the
  default calibration: the result code and the image as modified in place. -/
  preprocessImage : Mat → Bool → Int × Mat
  /-- Call `src.convertTo(dst, rtype, alpha)`: the matrix `dst` for the source,
  the target depth `rtype` and the scale factor `alpha`. -/
  convertTo : Mat → Depth → ℚ → Mat
  /-- Call `cvtColor(src, dst, code)`: the matrix `dst` for the source and the
  conversion code. -/
  cvtColor : Mat → ColorCode → Mat
  /-- Call `elas->process(I1, I2, D1, D2, dims)`: the two disparity fields written. -/
  elasProcess : List Nat → List Nat → Int × Int × Int → (Nat → Flt) × (Nat → Flt)

/-- What a call leaves observable besides its results. -/
inductive Event where
  | cerr (msg : String)
  | cerrSizes (w1 h1 w2 h2 : Int)
  | matcher (width height : Int)
  deriving DecidableEq

/-- How a call ends: normal return, a thrown `pnm_error`, or no defined behaviour. -/
inductive Status where
  | returned
  | thrown
  | undefined
  deriving DecidableEq

/-- Result of a fallible step: a value, a thrown `pnm_error` together with what
was written to `cerr` before it, or no defined behaviour. -/
inductive Res (α : Type) where
  | ok (a : α)
  | throws (out : List Event)
  | undefined

/-- Function `DenseStereo::rectify`, densestereo.cpp lines 40-58: the image after
the call and the extended log. -/
def rectify (E : Extern) (img : Mat) (right_image : Bool) (log : List Event) :
    Mat × List Event :=
  let (result, img1) := E.preprocessImage img right_image
  if result ≠ 0 then
    (img1, log ++ [Event.cerr "Error preprocessing image."])
  else
    (img1, log)

/-- Function `cvtCvMatToGrayscaleImage`, image.h lines 164-197. -/
def cvtCvMatToGrayscaleImage (E : Extern) (junk : Nat → Nat) (s : Store Nat) (inImage : Mat) :
    Res (Store Nat × image) :=
  let imgWidth := inImage.width
  let imgHeight := inImage.height
  let converted : Option Mat :=
    match inImage.type with
    | MatType.CV_8UC1 => some inImage
    | MatType.CV_16UC1 => some (E.convertTo inImage Depth.CV_8U (1 / 256))
    | MatType.CV_8UC3 => some (E.cvtColor inImage ColorCode.CV_BGR2GRAY)
    | MatType.CV_16UC3 =>
      some (E.cvtColor (E.convertTo inImage Depth.CV_8U (1 / 256)) ColorCode.CV_BGR2GRAY)
    | MatType.other _ => none
  match converted with
  | none =>
    Res.throws [Event.cerr "Unknown format. Cannot convert cv::Mat to image<uchar>."]
  | some Image =>
    match image.create s imgWidth imgHeight false junk, intMul imgWidth imgHeight with
    | some (s1, im), some n =>
      if n.toNat ≤ Image.data.length then
        match s1.writeN im.data (Image.data.take n.toNat) with
        | some s2 => Res.ok (s2, im)
        | none => Res.undefined
      else Res.undefined
    | _, _ => Res.undefined

/-- Function `convertImage2CvMat`, image.h lines 199-205. -/
def convertImage2CvMat (s : Store Nat) (im : image) : Option Mat :=
  let width := im.width
  let height := im.height
  match s.readN im.data (width * height).toNat with
  | some bytes => some { type := MatType.CV_8UC1, width := width, height := height, data := bytes }
  | none => none

/-- Everything observable after `process_FramePair`. -/
structure Run where
  status : Status
  log : List Event
  left_output_frame : Mat
  right_output_frame : Mat

/-- Lines 73-135 of `DenseStereo::process_FramePair`: size check, matcher call,
disparity scaling and conversion of the results. -/
def processGray (E : Extern) (junk : Nat → Nat) (s : Store Nat) (I1 I2 : image)
    (log : List Event) (left_output_frame right_output_frame : Mat) : Run :=
  if I1.width ≤ 0 ∨ I1.height ≤ 0 ∨ I2.width ≤ 0 ∨ I2.height ≤ 0 ∨
      I1.width ≠ I2.width ∨ I1.height ≠ I2.height then
    { status := Status.returned,
      log := log ++ [Event.cerr "ERROR: Images must be of same size, but",
                     Event.cerrSizes I1.width I1.height I2.width I2.height],
      left_output_frame := left_output_frame,
      right_output_frame := right_output_frame }
  else
    let width := I1.width
    let height := I1.height
    match intMul width height with
    | none =>
      { status := Status.undefined, log := log,
        left_output_frame := left_output_frame, right_output_frame := right_output_frame }
    | some count =>
      let n := count.toNat
      match s.readN I1.data n, s.readN I2.data n with
      | some in1, some in2 =>
        let (D1_data, D2_data) := E.elasProcess in1 in2 (width, height, width)
        let log1 := log ++ [Event.matcher width height]
        match normalize D1_data D2_data n with
        | none =>
          { status := Status.undefined, log := log1,
            left_output_frame := left_output_frame, right_output_frame := right_output_frame }
        | some (o1, o2) =>
          match image.create s width height false junk with
          | none =>
            { status := Status.undefined, log := log1,
              left_output_frame := left_output_frame,
              right_output_frame := right_output_frame }
          | some (s1, D1) =>
            match image.create s1 width height false junk with
            | none =>
              { status := Status.undefined, log := log1,
                left_output_frame := left_output_frame,
                right_output_frame := right_output_frame }
            | some (s2, D2) =>
              match (s2.writeN D1.data o1).bind (fun s3 => s3.writeN D2.data o2) with
              | none =>
                { status := Status.undefined, log := log1,
                  left_output_frame := left_output_frame,
                  right_output_frame := right_output_frame }
              | some s4 =>
                match convertImage2CvMat s4 D1, convertImage2CvMat s4 D2 with
                | some m1, some m2 =>
                  { status := Status.returned, log := log1,
                    left_output_frame := m1, right_output_frame := m2 }
                | _, _ =>
                  { status := Status.undefined, log := log1,
                    left_output_frame := left_output_frame,
                    right_output_frame := right_output_frame }
      | _, _ =>
        { status := Status.undefined, log := log,
          left_output_frame := left_output_frame, right_output_frame := right_output_frame }

/-- Function `DenseStereo::process_FramePair`, densestereo.cpp lines 61-135. -/
def process_FramePair (E : Extern) (junk : Nat → Nat) (s : Store Nat)
    (left_frame right_frame left_output_frame right_output_frame : Mat) : Run :=
  let rectified1 := rectify E left_frame false []
  let left := rectified1.1
  let rectified2 := rectify E right_frame true rectified1.2
  let right := rectified2.1
  let log2 := rectified2.2
  match cvtCvMatToGrayscaleImage E junk s left with
  | Res.throws out =>
    { status := Status.thrown, log := log2 ++ out,
      left_output_frame := left_output_frame, right_output_frame := right_output_frame }
  | Res.undefined =>
    { status := Status.undefined, log := log2,
      left_output_frame := left_output_frame, right_output_frame := right_output_frame }
  | Res.ok (s1, I1) =>
    match cvtCvMatToGrayscaleImage E junk s1 right with
    | Res.throws out =>
      { status := Status.thrown, log := log2 ++ out,
        left_output_frame := left_output_frame, right_output_frame := right_output_frame }
    | Res.undefined =>
      { status := Status.undefined, log := log2,
        left_output_frame := left_output_frame, right_output_frame := right_output_frame }
    | Res.ok (s2, I2) =>
      processGray E junk s2 I1 I2 log2 left_output_frame right_output_frame

/-- The matcher was invoked during a run. -/
def Run.matcherInvoked (r : Run) : Prop := ∃ w h, Event.matcher w h ∈ r.log

/-! ## `distance_image::updateDistanceGrid` (dense_stereo_types.h) -/

/-- Modelled from the spec: the class `envire::DistanceGrid` of the external
mapping library, of which the source only shows the constructor call and the
`DISTANCE` band.  A metric grid "sized and scaled from the DistanceImage's
width/height/scale/center fields", whose band is a two-dimensional array with
`cellSizeY` rows of `cellSizeX` cells, indexed `distance[y][x]`. -/
structure DistanceGrid where
  cellSizeX : Nat
  cellSizeY : Nat
  scalex : Flt
  scaley : Flt
  offsetx : Flt
  offsety : Flt
  distance : List (List Flt)
  deriving DecidableEq

/-- Modelled from the spec: the constructor
`envire::DistanceGrid(width, height, scale_x, scale_y, center_x, center_y)`;
the band starts zero-filled. -/
def DistanceGrid.new (width height : Nat) (scale_x scale_y center_x center_y : Flt) :
    DistanceGrid :=
  { cellSizeX := width, cellSizeY := height,
    scalex := scale_x, scaley := scale_y, offsetx := center_x, offsety := center_y,
    distance := List.replicate height (List.replicate width (Flt.fin 0)) }

/-- The struct `distance_image`; `width` and `height` are `uint16_t`. -/
structure distance_image where
  time : Int
  data : List Flt
  height : Nat
  width : Nat
  scale_x : Flt
  scale_y : Flt
  center_x : Flt
  center_y : Flt

/-- The assignment `distance[y][x] = data[y*width+x]` of line 104; `none` when
either index leaves its array. -/
def distance_image.copyCell (im : distance_image) (x y : Nat) (distance : List (List Flt)) :
    Option (List (List Flt)) :=
  match im.data[y * im.width + x]?, distance[y]? with
  | some v, some row =>
    if x < row.length then some (distance.set y (row.set x v)) else none
  | _, _ => none

/-- The first `k` iterations of the inner loop `for (y = 0; y < height; y++)`. -/
def distance_image.copyColumn (im : distance_image) (x : Nat) :
    Nat → List (List Flt) → Option (List (List Flt))
  | 0, distance => some distance
  | k + 1, distance => (copyColumn im x k distance).bind (im.copyCell x k)

/-- The first `k` iterations of the outer loop `for (x = 0; x < width; x++)`. -/
def distance_image.copyColumns (im : distance_image) :
    Nat → List (List Flt) → Option (List (List Flt))
  | 0, distance => some distance
  | k + 1, distance => (copyColumns im k distance).bind (im.copyColumn k im.height)

/-- Function `distance_image::updateDistanceGrid`, dense_stereo_types.h lines
83-109.  The handle `grid` is `none` for a null pointer and otherwise the
address of a grid in `heap`; the result is the returned flag, the handle after
the call and the heap after the call. -/
def distance_image.updateDistanceGrid (im : distance_image) (heap : List DistanceGrid)
    (grid : Option Nat) : Option (Bool × Option Nat × List DistanceGrid) :=
  let (res, g, heap1) :=
    match grid with
    | none =>
      (true, heap.length,
        heap ++ [DistanceGrid.new im.width im.height im.scale_x im.scale_y
                  im.center_x im.center_y])
    | some g => (false, g, heap)
  match heap1[g]? with
  | none => none
  | some G =>
    match im.copyColumns im.width G.distance with
    | none => none
    | some distance => some (res, some g, heap1.set g { G with distance := distance })

/-- Element `distance[y][x]` of a band. -/
def cellAt (distance : List (List Flt)) (x y : Nat) : Option Flt :=
  match distance[y]? with
  | some row => row[x]?
  | none => none

/-- A band has room for `height` rows of `width` cells. -/
def bandFits (distance : List (List Flt)) (width height : Nat) : Prop :=
  ∀ y, y < height → ∃ row, distance[y]? = some row ∧ width ≤ row.length

/-! ## PGM input (image.h) -/

/-- Constant `BUF_SIZE`. -/
def BUF_SIZE : Nat := 256

/-- Constant `UCHAR_MAX`. -/
def UCHAR_MAX : Int := 255

/-- The function `isspace` in the "C" locale, on a byte. -/
def isspace (c : Nat) : Bool := c == 32 || (9 ≤ c && c ≤ 13)

/-- The function `isdigit`, on a byte. -/
def isdigit (c : Nat) : Bool := 48 ≤ c && c ≤ 57

/-- A `std::ifstream` opened in binary mode: the bytes not yet consumed, and
whether the stream is still `good()` (neither `eofbit` nor `failbit`). -/
structure IStream where
  rest : List Nat
  good : Bool
  deriving DecidableEq

/-- Call `file.getline(doc, BUF_SIZE)` on a good stream: the input after the
line.  `none` when the end of input comes before a newline or when
`BUF_SIZE - 1` characters are stored without reaching one; the stream is then
no longer good, the following `file >> c` leaves `c` equal to the comment
character and the loop of `pnm_read` does not end. -/
def getline (input : List Nat) : Option (List Nat) :=
  let line := input.takeWhile (fun c => c != 10)
  match input.dropWhile (fun c => c != 10) with
  | [] => none
  | _ :: after => if line.length ≤ BUF_SIZE - 1 then some after else none

/-- The loop of `pnm_read` (lines 122-127) on a good stream: the input as
positioned after `file.putback(c)`.  `none` when `file >> c` meets the end of
input (`c` is then indeterminate) or when the loop does not end.  Every
iteration consumes input, so `fuel` larger than the input length is never
exhausted. -/
def skipComments : Nat → List Nat → Option (List Nat)
  | 0, _ => none
  | fuel + 1, input =>
    match input.dropWhile isspace with
    | [] => none
    | c :: after =>
      if c = 35 then
        match getline after with
        | some next => skipComments fuel next
        | none => none
      else some (c :: after)

/-- Function `pnm_read`, image.h lines 118-132: the token stored in `buf` and the
stream afterwards.  `none` when the token read is not determined by the input. -/
def pnm_read (file : IStream) : Option (List Nat × IStream) :=
  if file.good then
    match skipComments (file.rest.length + 1) file.rest with
    | none => none
    | some input =>
      let buf := (input.takeWhile (fun c => !isspace c)).take (BUF_SIZE - 1)
      match input.drop buf.length with
      | [] => some (buf, { rest := [], good := false })
      | _ :: after => some (buf, { rest := after, good := true })
  else none

/-- The function `strncmp(a, b, n)` on NUL-terminated strings, each given
without its terminator. -/
def strncmp : List Nat → List Nat → Nat → Int
  | _, _, 0 => 0
  | a, b, n + 1 =>
    let ca := a.headD 0
    let cb := b.headD 0
    if ca ≠ cb then (ca : Int) - (cb : Int)
    else if ca = 0 then 0
    else strncmp a.tail b.tail n

/-- Value of the leading decimal digits of a string, continuing from `acc`. -/
def digitsValue : List Nat → Nat → Nat
  | [], acc => acc
  | c :: cs, acc => if isdigit c then digitsValue cs (acc * 10 + (c - 48)) else acc

/-- The function `atoi`: optional white space, optional sign, decimal digits up
to the first other character or NUL; `none` when the value is not representable
as `int`, which C leaves undefined. -/
def atoi (buf : List Nat) : Option Int :=
  let str := (buf.takeWhile (fun c => c != 0)).dropWhile isspace
  let v : Int :=
    match str with
    | 45 :: digits => -((digitsValue digits 0 : Nat) : Int)
    | 43 :: digits => ((digitsValue digits 0 : Nat) : Int)
    | _ => ((digitsValue str 0 : Nat) : Int)
  if INT_MIN ≤ v ∧ v ≤ INT_MAX then some v else none

/-- The string literal "P5". -/
def P5 : List Nat := [80, 53]

/-- Outcome of `loadPGM`. -/
inductive LoadResult where
  | loaded (s : Store Nat) (im : image)
  | pnm_error
  | undefined
  deriving DecidableEq

/-- Function `loadPGM`, image.h lines 134-161, on the bytes of the named file. -/
def loadPGM (junk : Nat → Nat) (s : Store Nat) (contents : List Nat) : LoadResult :=
  match pnm_read { rest := contents, good := true } with
  | none => LoadResult.undefined
  | some (buf1, file1) =>
    if strncmp buf1 P5 2 ≠ 0 then LoadResult.pnm_error
    else
      match pnm_read file1 with
      | none => LoadResult.undefined
      | some (buf2, file2) =>
        match atoi buf2, pnm_read file2 with
        | some width, some (buf3, file3) =>
          match atoi buf3, pnm_read file3 with
          | some height, some (buf4, file4) =>
            match atoi buf4 with
            | none => LoadResult.undefined
            | some maxval =>
              if maxval > UCHAR_MAX then LoadResult.pnm_error
              else if width * height < 0 ∨ height < 0 then LoadResult.undefined
              else
                match image.create s width height false junk with
                | none => LoadResult.undefined
                | some (s1, im) =>
                  match imPtr im 0 0 with
                  | none => LoadResult.undefined
                  | some p =>
                    let bytes :=
                      if file4.good then file4.rest.take (width * height).toNat else []
                    match s1.writeN p bytes with
                    | some s2 => LoadResult.loaded s2 im
                    | none => LoadResult.undefined
          | _, _ => LoadResult.undefined
        | _, _ => LoadResult.undefined

/-- Bytes of an ASCII string. -/
def bytes (str : String) : List Nat := str.toList.map Char.toNat

/-! ## PGM output (image.h) -/

/-- Decimal digits of `n`, most significant first; `fuel` bounds the number of
digits and any value above `n` is enough. -/
def putDecimal : Nat → Nat → List Nat
  | 0, _ => []
  | fuel + 1, n =>
    if n < 10 then [48 + n] else putDecimal fuel (n / 10) ++ [48 + n % 10]

/-- The insertion `file << v` of an `int` into an `ostream` with default
formatting. -/
def ostreamInt (v : Int) : List Nat :=
  if v < 0 then 45 :: putDecimal (v.natAbs + 1) v.natAbs
  else putDecimal (v.toNat + 1) v.toNat

/-- Function `savePGM`, image.h lines 247-260: the bytes written to the named
file; `none` when the source range of `file.write` is not inside the image's
array. -/
def savePGM (s : Store Nat) (im : image) : Option (List Nat) :=
  let width := im.width
  let height := im.height
  let header := bytes "P5\n" ++ ostreamInt width ++ bytes " " ++ ostreamInt height ++
    bytes "\n" ++ ostreamInt UCHAR_MAX ++ bytes "\n"
  match imPtr im 0 0 with
  | none => none
  | some p =>
    match s.readN p (width * height).toNat with
    | some samples => some (header ++ samples)
    | none => none

/-! ## Concrete inputs used to instantiate the theorems -/

/-- A store holding one 2x2 image with samples `1, 2, 3, 4`. -/
def demoStore : Store Nat := [[1, 2, 3, 4]]

/-- The 2x2 image of `demoStore`. -/
def demoImage : image :=
  { w := 2, h := 2, data := ⟨0, 0⟩, access := [⟨0, 0⟩, ⟨0, 2⟩] }

/-- Weighted sum of each blue, green, red triple of a sample list. -/
def demoGray : List Nat → List Nat
  | b :: g :: r :: others => (114 * b + 587 * g + 299 * r) / 1000 :: demoGray others
  | _ => []

/-- External collaborators for the examples: preprocessing leaves the image
unchanged and reports `code`, `convertTo` multiplies every sample by `alpha`
and saturates at 255, `cvtColor` reduces each triple of samples to one, and the
matcher returns disparity `1` everywhere. -/
def demoExtern (code : Int) : Extern :=
  { preprocessImage := fun m _ => (code, m),
    convertTo := fun m _ alpha =>
      { m with data := m.data.map (fun v => Nat.min 255 ⌊alpha * (v : ℚ)⌋.toNat) },
    cvtColor := fun m _ => { m with data := demoGray m.data },
    elasProcess := fun _ _ _ => (fun _ => Flt.fin 1, fun _ => Flt.fin 1) }

/-- A 2x2 distance image with samples `1, 2, 3, 4`. -/
def demoDistance : distance_image :=
  { time := 0, data := [Flt.fin 1, Flt.fin 2, Flt.fin 3, Flt.fin 4], height := 2, width := 2,
    scale_x := Flt.fin 1, scale_y := Flt.fin 1, center_x := Flt.fin 0, center_y := Flt.fin 0 }

/-- A single-channel 8-bit frame with the given size and bytes. -/
def grayFrame (width height : Int) (data : List Nat) : Mat :=
  { type := MatType.CV_8UC1, width := width, height := height, data := data }

end DenseStereo

/-! # Properties -/

namespace DenseStereo

/-! ## Disparity scaling -/

theorem dispMaxStep_fin (q1 q2 : ℕ → ℚ) (i : ℕ) (m : ℚ) :
    dispMaxStep (fun i => Flt.fin (q1 i)) (fun i => Flt.fin (q2 i)) i (Flt.fin m)
      = Flt.fin (Max.max (Max.max m (q1 i)) (q2 i)) := by
  unfold dispMaxStep
  by_cases h1 : m < q1 i
  · by_cases h2 : q1 i < q2 i
    · simp [Flt.gt, Flt.lt, h1, h2, max_eq_right h1.le, max_eq_right h2.le]
    · simp [Flt.gt, Flt.lt, h1, h2, max_eq_right h1.le, max_eq_left (not_lt.mp h2)]
  · by_cases h2 : m < q2 i
    · simp [Flt.gt, Flt.lt, h1, h2, max_eq_left (not_lt.mp h1), max_eq_right h2.le]
    · simp [Flt.gt, Flt.lt, h1, h2, max_eq_left (not_lt.mp h1), max_eq_left (not_lt.mp h2)]

theorem dispMaxLoop_fin (q1 q2 : ℕ → ℚ) (k : ℕ) :
    ∃ m : ℚ, dispMaxLoop (fun i => Flt.fin (q1 i)) (fun i => Flt.fin (q2 i)) k = Flt.fin m ∧
      0 ≤ m ∧ (∀ i, i < k → q1 i ≤ m ∧ q2 i ≤ m) ∧
      (m = 0 ∨ ∃ i, i < k ∧ (q1 i = m ∨ q2 i = m)) := by
  induction k with
  | zero => exact ⟨0, rfl, le_refl _, fun i hi => absurd hi (Nat.not_lt_zero i), Or.inl rfl⟩
  | succ k ih =>
    obtain ⟨m, hm, h0, hle, hex⟩ := ih
    refine ⟨Max.max (Max.max m (q1 k)) (q2 k), ?_, ?_, ?_, ?_⟩
    · show dispMaxStep _ _ k (dispMaxLoop _ _ k) = _
      rw [hm, dispMaxStep_fin]
    · exact le_trans h0 (le_trans (le_max_left _ _) (le_max_left _ _))
    · intro i hi
      rcases Nat.lt_succ_iff_lt_or_eq.mp hi with h | h
      · exact ⟨le_trans (hle i h).1 (le_trans (le_max_left _ _) (le_max_left _ _)),
          le_trans (hle i h).2 (le_trans (le_max_left _ _) (le_max_left _ _))⟩
      · subst h
        exact ⟨le_trans (le_max_right _ _) (le_max_left _ _), le_max_right _ _⟩
    · rcases max_choice (Max.max m (q1 k)) (q2 k) with h | h
      · rw [h]
        rcases max_choice m (q1 k) with h' | h'
        · rw [h']
          rcases hex with hz | ⟨i, hi, hq⟩
          · exact Or.inl hz
          · exact Or.inr ⟨i, Nat.lt_succ_of_lt hi, hq⟩
        · rw [h']
          exact Or.inr ⟨k, Nat.lt_succ_self k, Or.inl rfl⟩
      · rw [h]
        exact Or.inr ⟨k, Nat.lt_succ_self k, Or.inr rfl⟩

theorem dispMaxLoop_eq_max (q1 q2 : ℕ → ℚ) (n : ℕ) (M : ℚ) (hM : 0 < M)
    (hle : ∀ i, i < n → q1 i ≤ M ∧ q2 i ≤ M)
    (hex : ∃ i, i < n ∧ (q1 i = M ∨ q2 i = M)) :
    dispMaxLoop (fun i => Flt.fin (q1 i)) (fun i => Flt.fin (q2 i)) n = Flt.fin M := by
  obtain ⟨m, hm, _, hle', hex'⟩ := dispMaxLoop_fin q1 q2 n
  have h1 : M ≤ m := by
    obtain ⟨i, hi, h⟩ := hex
    rcases h with h | h
    · rw [← h]; exact (hle' i hi).1
    · rw [← h]; exact (hle' i hi).2
  have h2 : m ≤ M := by
    rcases hex' with hz | ⟨i, hi, h⟩
    · rw [hz]; exact hM.le
    · rcases h with h | h
      · rw [← h]; exact (hle i hi).1
      · rw [← h]; exact (hle i hi).2
  rw [hm, le_antisymm h2 h1]

theorem trunc_nonneg {q : ℚ} (h : 0 ≤ q) : Flt.trunc q = ⌊q⌋ := by
  simp [Flt.trunc, h]

theorem scaleSample_fin (d M : ℚ) (hM : 0 < M) (hd : d ≤ M) :
    scaleSample (Flt.fin d) (Flt.fin M) = some (clampFormula d M) := by
  have hq : 255 * d / M ≤ 255 := by
    rw [div_le_iff₀ hM]; nlinarith
  have hmin : Min.min 255 (255 * d / M) = 255 * d / M := min_eq_right hq
  unfold scaleSample clampFormula
  rw [hmin]
  by_cases hneg : 255 * d / M < 0
  · have : Max.max 0 (255 * d / M) = 0 := max_eq_left hneg.le
    simp [Flt.mul, Flt.div, hM.ne', Flt.max, Flt.lt, hneg, Flt.toUint8, this, Flt.trunc]
  · have h0 : 0 ≤ 255 * d / M := not_lt.mp hneg
    have : Max.max 0 (255 * d / M) = 255 * d / M := max_eq_right h0
    have hfl0 : 0 ≤ ⌊255 * d / M⌋ := Int.floor_nonneg.mpr h0
    have hfl1 : ⌊255 * d / M⌋ ≤ 255 := by
      have : ⌊255 * d / M⌋ ≤ ⌊(255 : ℚ)⌋ := Int.floor_le_floor hq
      simpa using this
    simp [Flt.mul, Flt.div, hM.ne', Flt.max, Flt.lt, hneg, Flt.toUint8, this, trunc_nonneg h0,
      hfl0, hfl1]

theorem clampFormula_max (M : ℚ) (hM : 0 < M) : clampFormula M M = 255 := by
  have h : 255 * M / M = 255 := by field_simp
  simp [clampFormula, h, Flt.trunc]

theorem clampFormula_neg (d M : ℚ) (hM : 0 < M) (hd : d < 0) : clampFormula d M = 0 := by
  have h : 255 * d / M ≤ 0 := by
    apply div_nonpos_of_nonpos_of_nonneg _ hM.le
    linarith
  have h1 : Min.min 255 (255 * d / M) = 255 * d / M := min_eq_right (by linarith)
  simp [clampFormula, h1, max_eq_left h, Flt.trunc]

theorem clampFormula_le (d M : ℚ) : clampFormula d M ≤ 255 := by
  unfold clampFormula
  have h0 : (0 : ℚ) ≤ Max.max 0 (Min.min 255 (255 * d / M)) := le_max_left _ _
  have h1 : Max.max 0 (Min.min 255 (255 * d / M)) ≤ (255 : ℚ) :=
    max_le (by norm_num) (min_le_left _ _)
  rw [trunc_nonneg h0]
  have : ⌊Max.max 0 (Min.min 255 (255 * d / M))⌋ ≤ ⌊(255 : ℚ)⌋ := Int.floor_le_floor h1
  have h2 : ⌊Max.max 0 (Min.min 255 (255 * d / M))⌋ ≤ 255 := by simpa using this
  omega

theorem copyLoop_map (D1 D2 : ℕ → Flt) (dm : Flt) (f1 f2 : ℕ → ℕ) (k : ℕ)
    (h : ∀ i, i < k → scaleSample (D1 i) dm = some (f1 i) ∧ scaleSample (D2 i) dm = some (f2 i)) :
    copyLoop D1 D2 dm k = some ((List.range k).map f1, (List.range k).map f2) := by
  induction k with
  | zero => rfl
  | succ k ih =>
    have ih' := ih (fun i hi => h i (Nat.lt_succ_of_lt hi))
    have hk := h k (Nat.lt_succ_self k)
    simp only [copyLoop, ih', hk.1, hk.2, List.range_succ, List.map_append, List.map_cons,
      List.map_nil]

theorem dispMaxLoop_zero (n : ℕ) :
    dispMaxLoop (fun _ => Flt.fin 0) (fun _ => Flt.fin 0) n = Flt.fin 0 := by
  obtain ⟨m, hm, _, _, hex⟩ := dispMaxLoop_fin (fun _ => 0) (fun _ => 0) n
  have h0 : m = 0 := by
    rcases hex with h | ⟨i, _, h | h⟩
    · exact h
    · exact h.symm
    · exact h.symm
  rw [hm, h0]

/-- C1 (code does not do this).  When every raw sample of both fields is zero,
`disp_max` stays `0`, the quotient `255.0*0/0` is `NaN`, `std::max(NaN, 0.0)` is
`NaN`, and the conversion of `NaN` to `uint8_t` has no defined result: for every
positive number of samples the normalisation step produces no defined output,
rather than the all-zero output the specification promises. -/
theorem normalize_all_zero_undefined (n : ℕ) (hn : 0 < n) :
    dispMaxLoop (fun _ => Flt.fin 0) (fun _ => Flt.fin 0) n = Flt.fin 0 ∧
    Flt.max (Flt.div (Flt.mul (Flt.fin 255) (Flt.fin 0)) (Flt.fin 0)) (Flt.fin 0) = Flt.nan ∧
    normalize (fun _ => Flt.fin 0) (fun _ => Flt.fin 0) n = none := by
  have hs : scaleSample (Flt.fin 0) (Flt.fin 0) = none := by
    simp [scaleSample, Flt.mul, Flt.div, Flt.sgn, Flt.ofSign, Flt.max, Flt.lt, Flt.toUint8]
  refine ⟨dispMaxLoop_zero n, ?_, ?_⟩
  · simp [Flt.mul, Flt.div, Flt.sgn, Flt.ofSign, Flt.max, Flt.lt]
  · obtain ⟨k, rfl⟩ : ∃ k, n = k + 1 := ⟨n - 1, by omega⟩
    unfold normalize
    rw [dispMaxLoop_zero]
    show (match copyLoop _ _ _ k with
      | none => none
      | some (o1, o2) =>
        match scaleSample (Flt.fin 0) (Flt.fin 0), scaleSample (Flt.fin 0) (Flt.fin 0) with
        | some a, some b => some (o1 ++ [a], o2 ++ [b])
        | _, _ => none) = none
    rw [hs]
    cases copyLoop (fun _ => Flt.fin 0) (fun _ => Flt.fin 0) (Flt.fin 0) k <;> rfl

theorem normalize_all_zero_undefined_witness :
    dispMaxLoop (fun _ => Flt.fin 0) (fun _ => Flt.fin 0) 1 = Flt.fin 0 ∧
    Flt.max (Flt.div (Flt.mul (Flt.fin 255) (Flt.fin 0)) (Flt.fin 0)) (Flt.fin 0) = Flt.nan ∧
    normalize (fun _ => Flt.fin 0) (fun _ => Flt.fin 0) 1 = none :=
  normalize_all_zero_undefined 1 (by decide)

/-- C2.  For finite raw samples whose maximum over both fields is `M > 0`, the
normalisation step is defined and every output sample is
`clamp(255*d/M, 0, 255)` truncated to an integer, `d` being the raw sample at
the same index of the same field; an index holding `M` gives `255`, a negative
sample gives `0`, and every output is at most `255`. -/
theorem normalize_formula (q1 q2 : ℕ → ℚ) (n : ℕ) (M : ℚ) (hM : 0 < M)
    (hle : ∀ i, i < n → q1 i ≤ M ∧ q2 i ≤ M)
    (hex : ∃ i, i < n ∧ (q1 i = M ∨ q2 i = M)) :
    ∃ o1 o2 : List ℕ,
      normalize (fun i => Flt.fin (q1 i)) (fun i => Flt.fin (q2 i)) n = some (o1, o2) ∧
      o1.length = n ∧ o2.length = n ∧
      ∀ i, i < n →
        o1[i]? = some (clampFormula (q1 i) M) ∧ o2[i]? = some (clampFormula (q2 i) M) ∧
        (q1 i = M → o1[i]? = some 255) ∧ (q2 i = M → o2[i]? = some 255) ∧
        (q1 i < 0 → o1[i]? = some 0) ∧ (q2 i < 0 → o2[i]? = some 0) ∧
        (∀ v, o1[i]? = some v → v ≤ 255) ∧ (∀ v, o2[i]? = some v → v ≤ 255) := by
  refine ⟨(List.range n).map (fun i => clampFormula (q1 i) M),
    (List.range n).map (fun i => clampFormula (q2 i) M), ?_, by simp, by simp, ?_⟩
  · unfold normalize
    rw [dispMaxLoop_eq_max q1 q2 n M hM hle hex]
    exact copyLoop_map _ _ _ _ _ n
      (fun i hi => ⟨scaleSample_fin _ _ hM (hle i hi).1, scaleSample_fin _ _ hM (hle i hi).2⟩)
  · intro i hi
    have e1 : ((List.range n).map (fun i => clampFormula (q1 i) M))[i]?
        = some (clampFormula (q1 i) M) := by
      simp [List.getElem?_map, List.getElem?_range hi]
    have e2 : ((List.range n).map (fun i => clampFormula (q2 i) M))[i]?
        = some (clampFormula (q2 i) M) := by
      simp [List.getElem?_map, List.getElem?_range hi]
    rw [e1, e2]
    refine ⟨rfl, rfl, ?_, ?_, ?_, ?_, ?_, ?_⟩
    · intro h; rw [h, clampFormula_max M hM]
    · intro h; rw [h, clampFormula_max M hM]
    · intro h; rw [clampFormula_neg _ M hM h]
    · intro h; rw [clampFormula_neg _ M hM h]
    · intro v hv; rw [← Option.some.inj hv]; exact clampFormula_le _ _
    · intro v hv; rw [← Option.some.inj hv]; exact clampFormula_le _ _

theorem normalize_formula_witness :
    ∃ o1 o2 : List ℕ,
      normalize (fun i => Flt.fin ((fun i : ℕ => (i : ℚ)) i))
        (fun i => Flt.fin ((fun _ : ℕ => (-10 : ℚ)) i)) 3 = some (o1, o2) ∧
      o1.length = 3 ∧ o2.length = 3 ∧
      ∀ i, i < 3 →
        o1[i]? = some (clampFormula ((fun i : ℕ => (i : ℚ)) i) 2) ∧
        o2[i]? = some (clampFormula ((fun _ : ℕ => (-10 : ℚ)) i) 2) ∧
        ((fun i : ℕ => (i : ℚ)) i = 2 → o1[i]? = some 255) ∧
        ((fun _ : ℕ => (-10 : ℚ)) i = 2 → o2[i]? = some 255) ∧
        ((fun i : ℕ => (i : ℚ)) i < 0 → o1[i]? = some 0) ∧
        ((fun _ : ℕ => (-10 : ℚ)) i < 0 → o2[i]? = some 0) ∧
        (∀ v, o1[i]? = some v → v ≤ 255) ∧ (∀ v, o2[i]? = some v → v ≤ 255) :=
  normalize_formula (fun i => (i : ℚ)) (fun _ => -10) 3 2 (by norm_num)
    (fun i hi => ⟨by
      have : (i : ℚ) ≤ ((2 : ℕ) : ℚ) := Nat.cast_le.mpr (Nat.lt_succ_iff.mp hi)
      simpa using this, by norm_num⟩)
    ⟨2, by decide, Or.inl (by norm_num)⟩

/-- C3.  After the scan loop over two fields of `width*height` finite samples,
`disp_max` is a finite value that is at least `0` and at least every sample of
`D1` and of `D2`, and it is `0` or equal to a sample of `D1` or of `D2`: the
maximum of `0` and all samples of both fields. -/
theorem disp_max_is_maximum (q1 q2 : ℕ → ℚ) (width height : ℕ) :
    ∃ m : ℚ,
      dispMaxLoop (fun i => Flt.fin (q1 i)) (fun i => Flt.fin (q2 i)) (width * height)
        = Flt.fin m ∧
      0 ≤ m ∧
      (∀ i, i < width * height → q1 i ≤ m ∧ q2 i ≤ m) ∧
      (m = 0 ∨ ∃ i, i < width * height ∧ (q1 i = m ∨ q2 i = m)) := by
  obtain ⟨m, hm, h0, hle, hex⟩ := dispMaxLoop_fin q1 q2 (width * height)
  exact ⟨m, hm, h0, hle, hex⟩

/-! ## `image<T>` -/

theorem toNat_mul_cast (i W : ℕ) : ((i : ℤ) * (W : ℤ)).toNat = i * W := by
  rw [← Nat.cast_mul]; exact Int.toNat_natCast _

theorem index_lt {x y W H : ℕ} (hx : x < W) (hy : y < H) : y * W + x < W * H := by
  calc y * W + x < y * W + W := Nat.add_lt_add_left hx _
    _ = (y + 1) * W := by ring
    _ ≤ H * W := Nat.mul_le_mul_right W hy
    _ = W * H := Nat.mul_comm _ _

theorem index_inj {x y x' y' W : ℕ} (hx : x < W) (hx' : x' < W)
    (h : y * W + x = y' * W + x') : x = x' ∧ y = y' := by
  have hW : 0 < W := Nat.lt_of_le_of_lt (Nat.zero_le x) hx
  have e1 : (y * W + x) % W = x := by
    rw [Nat.add_comm, Nat.add_mul_mod_self_right, Nat.mod_eq_of_lt hx]
  have e2 : (y' * W + x') % W = x' := by
    rw [Nat.add_comm, Nat.add_mul_mod_self_right, Nat.mod_eq_of_lt hx']
  have hxx : x = x' := by rw [← e1, ← e2, h]
  subst hxx
  exact ⟨rfl, Nat.eq_of_mul_eq_mul_right hW (Nat.add_right_cancel h)⟩

theorem index_surj {k W H : ℕ} (hk : k < W * H) :
    ∃ x y, x < W ∧ y < H ∧ y * W + x = k := by
  have hW : 0 < W := by
    rcases Nat.eq_zero_or_pos W with h | h
    · rw [h, Nat.zero_mul] at hk; exact absurd hk (Nat.not_lt_zero _)
    · exact h
  refine ⟨k % W, k / W, Nat.mod_lt _ hW, ?_, ?_⟩
  · exact (Nat.div_lt_iff_lt_mul hW).mpr (by rwa [Nat.mul_comm] at hk)
  · rw [Nat.mul_comm]; exact Nat.div_add_mod k W

theorem set_append_last {α : Type} (s : List α) (a b : α) :
    (s ++ [a]).set s.length b = s ++ [b] := by
  induction s with
  | nil => rfl
  | cons c s ih => simp [List.set, ih]

theorem getElem?_append_last {α : Type} (s : List α) (a : α) :
    (s ++ [a])[s.length]? = some a := by
  simp

theorem getElem?_append_old {α : Type} (s : List α) (a : α) {b : ℕ} {c : α}
    (h : s[b]? = some c) : (s ++ [a])[b]? = some c := by
  have hb : b < s.length := by
    rcases Nat.lt_or_ge b s.length with hlt | hge
    · exact hlt
    · rw [List.getElem?_eq_none hge] at h; exact absurd h (by simp)
  rw [List.getElem?_append_left hb]; exact h

theorem intMul_cast (W H : ℕ) (hb : (W : ℤ) * (H : ℤ) ≤ INT_MAX) :
    intMul (W : ℤ) (H : ℤ) = some ((W : ℤ) * (H : ℤ)) := by
  have h0 : (0 : ℤ) ≤ (W : ℤ) * (H : ℤ) :=
    Int.mul_nonneg (Int.natCast_nonneg _) (Int.natCast_nonneg _)
  have hmin : INT_MIN ≤ (W : ℤ) * (H : ℤ) := le_trans (by decide) h0
  simp [intMul, hmin, hb]

theorem create_eq {T : Type} [Zero T] (s : Store T) (W H : ℕ) (init : Bool) (junk : ℕ → T)
    (hb : (W : ℤ) * (H : ℤ) ≤ INT_MAX) :
    image.create s (W : ℤ) (H : ℤ) init junk =
      some (s ++ [if init then List.replicate (W * H) 0 else (List.range (W * H)).map junk],
        { w := (W : ℤ), h := (H : ℤ), data := ⟨s.length, 0⟩,
          access := (List.range H).map (fun i => (⟨s.length, i * W⟩ : Ptr)) }) := by
  have h0 : (0 : ℤ) ≤ (W : ℤ) * (H : ℤ) ∧ (0 : ℤ) ≤ (H : ℤ) :=
    ⟨Int.mul_nonneg (Int.natCast_nonneg _) (Int.natCast_nonneg _), Int.natCast_nonneg _⟩
  unfold image.create Store.alloc
  simp only [intMul_cast W H hb, if_pos h0]
  cases init
  · simp [toNat_mul_cast, Ptr.add]
  · simp [toNat_mul_cast, Ptr.add, set_append_last]

theorem wf_fresh {T : Type} (s : Store T) (W H : ℕ) (cells : List T)
    (hlen : cells.length = W * H) (hb : (W : ℤ) * (H : ℤ) ≤ INT_MAX) :
    image.wf (s ++ [cells])
      (image.mk (W : ℤ) (H : ℤ) ⟨s.length, 0⟩
        ((List.range H).map (fun i => (⟨s.length, i * W⟩ : Ptr)))) := by
  refine ⟨Int.natCast_nonneg _, Int.natCast_nonneg _, rfl,
    ⟨cells, getElem?_append_last s cells, ?_⟩, ?_, hb⟩
  · simp only [toNat_mul_cast]; exact hlen
  · simp [toNat_mul_cast, Ptr.add]

theorem wf_imPtr {T : Type} {s : Store T} {im : image} (hwf : image.wf s im) {x y : ℕ}
    (hy : (y : ℤ) < im.h) :
    imPtr im x y = some (im.data.add (y * im.w.toNat + x)) := by
  obtain ⟨hw, hh, hoff, _, hacc, _⟩ := hwf
  obtain ⟨W, hW⟩ := Int.eq_ofNat_of_zero_le hw
  obtain ⟨H, hH⟩ := Int.eq_ofNat_of_zero_le hh
  have hy' : y < H := by rw [hH] at hy; exact_mod_cast hy
  unfold imPtr
  rw [hacc, hW, hH]
  simp [List.getElem?_map, List.getElem?_range hy', toNat_mul_cast, Ptr.add, Nat.add_assoc]

theorem wf_index_lt {T : Type} {s : Store T} {im : image} (hwf : image.wf s im) {x y : ℕ}
    (hx : (x : ℤ) < im.w) (hy : (y : ℤ) < im.h) :
    y * im.w.toNat + x < (im.w * im.h).toNat := by
  obtain ⟨hw, hh, _, _, _⟩ := hwf
  obtain ⟨W, hW⟩ := Int.eq_ofNat_of_zero_le hw
  obtain ⟨H, hH⟩ := Int.eq_ofNat_of_zero_le hh
  rw [hW, hH, toNat_mul_cast, Int.toNat_natCast]
  rw [hW] at hx; rw [hH] at hy
  exact index_lt (by exact_mod_cast hx) (by exact_mod_cast hy)

theorem read_data {T : Type} {s : Store T} {im : image} {cells : List T}
    (hoff : im.data.off = 0) (hc : s[im.data.block]? = some cells) (k : ℕ) :
    s.read (im.data.add k) = cells[k]? := by
  simp [Store.read, Ptr.add, hc, hoff]

theorem read_write_other {T : Type} {s s' : Store T} {p q : Ptr} {v : T}
    (hw : s.write p v = some s') (hne : q.block ≠ p.block) : s'.read q = s.read q := by
  unfold Store.write at hw
  cases hc : s[p.block]? with
  | none => rw [hc] at hw; exact absurd hw (by simp)
  | some cells =>
    rw [hc] at hw
    by_cases hlt : p.off < cells.length
    · simp only [hlt, if_true, Option.some.injEq] at hw
      subst hw
      unfold Store.read
      rw [List.getElem?_set_ne (Ne.symm hne)]
    · simp [hlt] at hw

theorem write_data {T : Type} {s : Store T} {im : image} {cells : List T}
    (hoff : im.data.off = 0) (hc : s[im.data.block]? = some cells) {k : ℕ}
    (hk : k < cells.length) (v : T) :
    s.write (im.data.add k) v = some (s.set im.data.block (cells.set k v)) := by
  simp [Store.write, Ptr.add, hc, hoff, hk]

theorem ptr_add_inj {p : Ptr} {a b : ℕ} (h : p.add a = p.add b) : a = b := by
  unfold Ptr.add at h
  injection h with _ h2
  exact Nat.add_left_cancel h2

/-- C8 as stated fails: for width 65536 and height 65536, both non-negative,
the sample count `w * h` formed in `int` is not representable, and the
constructor yields no image with `65536*65536` samples. -/
theorem image_buffer_counterexample :
    (0 : ℤ) ≤ 65536 ∧ intMul 65536 65536 = none ∧
    image.create ([] : Store ℕ) 65536 65536 false (fun _ => 0) = none := by
  decide

/-- C8 (amended).  An `image<T>` constructed with width `W >= 0` and height
`H >= 0` whose product `W*H` is at most `INT_MAX` has `width() = W`,
`height() = H`, satisfies the class invariant, and has a data array of exactly
`W*H` samples; for `x` in `[0,W)` and `y` in `[0,H)` the row-pointer access
`access[y][x]` is the sample `data[y*W + x]`, which lies inside the array;
distinct pairs address distinct samples and every sample of the array is
addressed by some pair. -/
theorem image_buffer_invariant {T : Type} [Zero T] (s : Store T) (W H : ℤ) (init : Bool)
    (junk : ℕ → T) (hW : 0 ≤ W) (hH : 0 ≤ H) (hmax : W * H ≤ INT_MAX) :
    ∃ (s1 : Store T) (im : image),
      image.create s W H init junk = some (s1, im) ∧
      im.width = W ∧ im.height = H ∧ image.wf s1 im ∧
      (∃ cells : List T,
        s1[im.data.block]? = some cells ∧ im.data.off = 0 ∧
        cells.length = (W * H).toNat ∧
        ∀ x y : ℕ, (x : ℤ) < W → (y : ℤ) < H →
          y * W.toNat + x < cells.length ∧
          imPtr im x y = some (im.data.add (y * W.toNat + x)) ∧
          imRef s1 im x y = cells[y * W.toNat + x]?) ∧
      (∀ x y x' y' : ℕ, (x : ℤ) < W → (y : ℤ) < H → (x' : ℤ) < W → (y' : ℤ) < H →
        imPtr im x y = imPtr im x' y' → x = x' ∧ y = y') ∧
      (∀ k : ℕ, k < (W * H).toNat → ∃ x y : ℕ, (x : ℤ) < W ∧ (y : ℤ) < H ∧
        imPtr im x y = some (im.data.add k)) := by
  obtain ⟨w, rfl⟩ := Int.eq_ofNat_of_zero_le hW
  obtain ⟨h, rfl⟩ := Int.eq_ofNat_of_zero_le hH
  obtain ⟨cells, hcells⟩ : ∃ cells : List T,
      cells = if init then List.replicate (w * h) 0 else (List.range (w * h)).map junk :=
    ⟨_, rfl⟩
  have hlenN : cells.length = w * h := by
    rw [hcells]; cases init <;> simp
  obtain ⟨im, him⟩ : ∃ im : image, im = image.mk (w : ℤ) (h : ℤ) ⟨s.length, 0⟩
      ((List.range h).map (fun i => (⟨s.length, i * w⟩ : Ptr))) := ⟨_, rfl⟩
  have hcreate : image.create s (w : ℤ) (h : ℤ) init junk = some (s ++ [cells], im) := by
    rw [create_eq s w h init junk hmax, hcells, him]
  have hwf : image.wf (s ++ [cells]) im := by
    rw [him]; exact wf_fresh s w h cells hlenN hmax
  have hw : im.w = (w : ℤ) := by rw [him]
  have hh : im.h = (h : ℤ) := by rw [him]
  have hoff : im.data.off = 0 := by rw [him]
  have hc : (s ++ [cells])[im.data.block]? = some cells := by
    rw [him]; exact getElem?_append_last s cells
  have hptr : ∀ x y : ℕ, (y : ℤ) < (h : ℤ) →
      imPtr im x y = some (im.data.add (y * w + x)) := by
    intro x y hy
    have := wf_imPtr hwf (x := x) (y := y) (by rw [hh]; exact hy)
    rw [hw, Int.toNat_natCast] at this
    exact this
  refine ⟨s ++ [cells], im, hcreate, hw, hh, hwf, ?_, ?_, ?_⟩
  · refine ⟨cells, hc, hoff, by rw [hlenN, toNat_mul_cast], ?_⟩
    intro x y hx hy
    have hlt : y * w + x < cells.length := by
      rw [hlenN]
      exact index_lt (by exact_mod_cast hx) (by exact_mod_cast hy)
    rw [Int.toNat_natCast]
    refine ⟨hlt, hptr x y hy, ?_⟩
    unfold imRef
    rw [hptr x y hy]
    exact read_data hoff hc _
  · intro x y x' y' hx hy hx' hy' he
    rw [hptr x y hy, hptr x' y' hy'] at he
    exact index_inj (by exact_mod_cast hx) (by exact_mod_cast hx')
      (ptr_add_inj (Option.some.inj he))
  · intro k hk
    rw [toNat_mul_cast] at hk
    obtain ⟨x, y, hx, hy, he⟩ := index_surj hk
    refine ⟨x, y, by exact_mod_cast hx, by exact_mod_cast hy, ?_⟩
    rw [hptr x y (by exact_mod_cast hy), he]

theorem image_buffer_invariant_witness :
    ∃ (s1 : Store ℕ) (im : image),
      image.create ([] : Store ℕ) 2 3 false (fun _ => 7) = some (s1, im) ∧
      im.width = 2 ∧ im.height = 3 ∧ image.wf s1 im ∧
      (∃ cells : List ℕ,
        s1[im.data.block]? = some cells ∧ im.data.off = 0 ∧
        cells.length = ((2 : ℤ) * 3).toNat ∧
        ∀ x y : ℕ, (x : ℤ) < 2 → (y : ℤ) < 3 →
          y * (2 : ℤ).toNat + x < cells.length ∧
          imPtr im x y = some (im.data.add (y * (2 : ℤ).toNat + x)) ∧
          imRef s1 im x y = cells[y * (2 : ℤ).toNat + x]?) ∧
      (∀ x y x' y' : ℕ, (x : ℤ) < 2 → (y : ℤ) < 3 → (x' : ℤ) < 2 → (y' : ℤ) < 3 →
        imPtr im x y = imPtr im x' y' → x = x' ∧ y = y') ∧
      (∀ k : ℕ, k < ((2 : ℤ) * 3).toNat → ∃ x y : ℕ, (x : ℤ) < 2 ∧ (y : ℤ) < 3 ∧
        imPtr im x y = some (im.data.add k)) :=
  image_buffer_invariant [] 2 3 false (fun _ => 7) (by decide) (by decide) (by decide)

theorem copy_eq {T : Type} [Zero T] (s : Store T) (im : image) (junk : ℕ → T)
    (hwf : image.wf s im) :
    ∃ cells : List T, s[im.data.block]? = some cells ∧ cells.length = (im.w * im.h).toNat ∧
      image.copy s im junk = some (s ++ [cells],
        { w := im.w, h := im.h, data := ⟨s.length, 0⟩,
          access := (List.range im.h.toNat).map
            (fun i => (⟨s.length, i * im.w.toNat⟩ : Ptr)) }) := by
  obtain ⟨hw, hh, hoff, ⟨cells, hc, hlen⟩, _, hb⟩ := hwf
  obtain ⟨W, hW⟩ := Int.eq_ofNat_of_zero_le hw
  obtain ⟨H, hH⟩ := Int.eq_ofNat_of_zero_le hh
  refine ⟨cells, hc, hlen, ?_⟩
  rw [hW, hH, toNat_mul_cast] at hlen
  rw [hW, hH] at hb
  have hc' := getElem?_append_old s ((List.range (W * H)).map junk) hc
  unfold image.copy
  rw [hW, hH, create_eq s W H false junk hb, intMul_cast W H hb]
  simp only [toNat_mul_cast, Int.toNat_natCast, Bool.false_eq_true, if_false]
  have hread : Store.readN (s ++ [(List.range (W * H)).map junk]) im.data (W * H)
      = some cells := by
    unfold Store.readN
    rw [hc', hoff]
    simp [hlen]
  have hwrite : Store.writeN (s ++ [(List.range (W * H)).map junk]) ⟨s.length, 0⟩ cells
      = some (s ++ [cells]) := by
    unfold Store.writeN
    simp [hlen, set_append_last]
  simp only [memcpy, hread, hwrite]

theorem wf_append {T : Type} {s : Store T} {im : image} (hwf : image.wf s im) (c : List T) :
    image.wf (s ++ [c]) im := by
  obtain ⟨hw, hh, hoff, ⟨cells, hc, hlen⟩, hacc⟩ := hwf
  exact ⟨hw, hh, hoff, ⟨cells, getElem?_append_old s c hc, hlen⟩, hacc⟩

theorem block_lt {α : Type} {s : List α} {b : ℕ} {cells : α} (h : s[b]? = some cells) :
    b < s.length := by
  rcases Nat.lt_or_ge b s.length with hlt | hge
  · exact hlt
  · rw [List.getElem?_eq_none hge] at h; exact absurd h (by simp)

/-- C9.  For an image `im` satisfying the class invariant, `im.copy()` returns
an image with the same width and height whose samples equal those of `im` at
every `(x,y)`, read through the row pointers or through `data`; the copy's
array is a different array of the store, so a write to any sample of the copy
leaves every sample of the original unchanged, and a write to any sample of
the original leaves every sample of the copy unchanged. -/
theorem copy_is_deep {T : Type} [Zero T] (s : Store T) (im : image) (junk : ℕ → T)
    (hwf : image.wf s im) :
    ∃ (s1 : Store T) (im1 : image), image.copy s im junk = some (s1, im1) ∧
      im1.width = im.width ∧ im1.height = im.height ∧
      image.wf s1 im1 ∧ image.wf s1 im ∧ im1.data.block ≠ im.data.block ∧
      (∀ x y : ℕ, (x : ℤ) < im.w → (y : ℤ) < im.h →
        (imRef s im x y).isSome = true ∧
        imRef s1 im1 x y = imRef s im x y ∧
        s1.read (im1.data.add (y * im.w.toNat + x)) = imRef s im x y ∧
        imRef s1 im x y = imRef s im x y) ∧
      (∀ (x y : ℕ) (v : T), (x : ℤ) < im.w → (y : ℤ) < im.h →
        ∃ s2 : Store T, imSet s1 im1 x y v = some s2 ∧ imRef s2 im1 x y = some v ∧
          ∀ x' y' : ℕ, (x' : ℤ) < im.w → (y' : ℤ) < im.h →
            imRef s2 im x' y' = imRef s1 im x' y' ∧
            s2.read (im.data.add (y' * im.w.toNat + x'))
              = s1.read (im.data.add (y' * im.w.toNat + x'))) ∧
      (∀ (x y : ℕ) (v : T), (x : ℤ) < im.w → (y : ℤ) < im.h →
        ∃ s2 : Store T, imSet s1 im x y v = some s2 ∧ imRef s2 im x y = some v ∧
          ∀ x' y' : ℕ, (x' : ℤ) < im.w → (y' : ℤ) < im.h →
            imRef s2 im1 x' y' = imRef s1 im1 x' y' ∧
            s2.read (im1.data.add (y' * im.w.toNat + x'))
              = s1.read (im1.data.add (y' * im.w.toNat + x'))) := by
  obtain ⟨cells, hc, hlen, hcopy⟩ := copy_eq s im junk hwf
  have hwf0 := hwf
  obtain ⟨hw, hh, hoff, _, hacc, hbound⟩ := hwf
  have hblock : s.length ≠ im.data.block := Nat.ne_of_gt (block_lt hc)
  have hwf1' : image.wf (s ++ [cells])
      { w := im.w, h := im.h, data := ⟨s.length, 0⟩,
        access := (List.range im.h.toNat).map
          (fun i => (⟨s.length, i * im.w.toNat⟩ : Ptr)) } := by
    refine ⟨hw, hh, rfl, ⟨cells, getElem?_append_last s cells, hlen⟩, ?_, hbound⟩
    obtain ⟨W, hW⟩ := Int.eq_ofNat_of_zero_le hw
    simp [hW, toNat_mul_cast, Ptr.add]
  obtain ⟨im1, hdef⟩ : ∃ im1 : image, im1 = image.mk im.w im.h ⟨s.length, 0⟩
      ((List.range im.h.toNat).map (fun i => (⟨s.length, i * im.w.toNat⟩ : Ptr))) := ⟨_, rfl⟩
  rw [← hdef] at hcopy hwf1'
  have hwf1 : image.wf (s ++ [cells]) im1 := hwf1'
  have hw1 : im1.w = im.w := by rw [hdef]
  have hh1 : im1.h = im.h := by rw [hdef]
  have hb1 : im1.data.block = s.length := by rw [hdef]
  have hoff1 : im1.data.off = 0 := by rw [hdef]
  have hc1 : (s ++ [cells])[im1.data.block]? = some cells := by
    rw [hb1]; exact getElem?_append_last s cells
  have hwf2 : image.wf (s ++ [cells]) im := wf_append hwf0 cells
  have hc2 : (s ++ [cells])[im.data.block]? = some cells := getElem?_append_old s cells hc
  have rd0 : ∀ x y : ℕ, (y : ℤ) < im.h →
      imRef s im x y = cells[y * im.w.toNat + x]? := by
    intro x y hy
    unfold imRef
    rw [wf_imPtr hwf0 hy]
    exact read_data hoff hc _
  have rd2 : ∀ x y : ℕ, (y : ℤ) < im.h →
      imRef (s ++ [cells]) im x y = cells[y * im.w.toNat + x]? := by
    intro x y hy
    unfold imRef
    rw [wf_imPtr hwf2 hy]
    exact read_data hoff hc2 _
  have ptr1 : ∀ x y : ℕ, (y : ℤ) < im.h →
      imPtr im1 x y = some (im1.data.add (y * im.w.toNat + x)) := by
    intro x y hy
    have := wf_imPtr hwf1 (x := x) (y := y) (by rw [hh1]; exact hy)
    rw [hw1] at this
    exact this
  have rd1 : ∀ x y : ℕ, (y : ℤ) < im.h →
      imRef (s ++ [cells]) im1 x y = cells[y * im.w.toNat + x]? := by
    intro x y hy
    unfold imRef
    rw [ptr1 x y hy]
    exact read_data hoff1 hc1 _
  refine ⟨_, im1, hcopy, ?_, ?_, hwf1, hwf2, ?_, ?_, ?_, ?_⟩
  · exact hw1
  · exact hh1
  · rw [hb1]; exact hblock
  · intro x y hx hy
    have hlt : y * im.w.toNat + x < cells.length := by
      rw [hlen]; exact wf_index_lt hwf0 hx hy
    refine ⟨?_, ?_, ?_, ?_⟩
    · rw [rd0 x y hy, List.getElem?_eq_getElem hlt]; rfl
    · rw [rd1 x y hy, rd0 x y hy]
    · rw [rd0 x y hy]; exact read_data hoff1 hc1 _
    · rw [rd2 x y hy, rd0 x y hy]
  · intro x y v hx hy
    have hlt : y * im.w.toNat + x < cells.length := by
      rw [hlen]; exact wf_index_lt hwf0 hx hy
    have hwr := write_data hoff1 hc1 hlt v
    have hset : imSet (s ++ [cells]) im1 x y v
        = some ((s ++ [cells]).set im1.data.block (cells.set (y * im.w.toNat + x) v)) := by
      unfold imSet
      rw [ptr1 x y hy]
      exact hwr
    refine ⟨_, hset, ?_, ?_⟩
    · unfold imRef
      rw [ptr1 x y hy]
      have hb : im1.data.block < (s ++ [cells]).length := block_lt hc1
      simp [Store.read, Ptr.add, hoff1, List.getElem?_set_self hb, hlt]
    · intro x' y' _ hy'
      have hkeep := read_write_other hwr
        (q := im.data.add (y' * im.w.toNat + x')) (by
          show im.data.block ≠ im1.data.block
          rw [hb1]; exact Ne.symm hblock)
      refine ⟨?_, hkeep⟩
      unfold imRef
      rw [wf_imPtr hwf2 hy']
      exact hkeep
  · intro x y v hx hy
    have hlt : y * im.w.toNat + x < cells.length := by
      rw [hlen]; exact wf_index_lt hwf0 hx hy
    have hwr := write_data hoff hc2 hlt v
    have hset : imSet (s ++ [cells]) im x y v
        = some ((s ++ [cells]).set im.data.block (cells.set (y * im.w.toNat + x) v)) := by
      unfold imSet
      rw [wf_imPtr hwf2 hy]
      exact hwr
    refine ⟨_, hset, ?_, ?_⟩
    · unfold imRef
      rw [wf_imPtr hwf2 hy]
      have hb : im.data.block < (s ++ [cells]).length := block_lt hc2
      simp [Store.read, Ptr.add, hoff, List.getElem?_set_self hb, hlt]
    · intro x' y' _ hy'
      have hkeep := read_write_other hwr
        (q := im1.data.add (y' * im.w.toNat + x')) (by
          show im1.data.block ≠ im.data.block
          rw [hb1]; exact hblock)
      refine ⟨?_, hkeep⟩
      unfold imRef
      rw [ptr1 x' y' hy']
      exact hkeep

theorem copy_is_deep_witness :
    ∃ (s1 : Store ℕ) (im1 : image),
      image.copy demoStore demoImage (fun _ => 0) = some (s1, im1) ∧
      im1.width = demoImage.width ∧ im1.height = demoImage.height ∧
      image.wf s1 im1 ∧ image.wf s1 demoImage ∧ im1.data.block ≠ demoImage.data.block ∧
      (∀ x y : ℕ, (x : ℤ) < demoImage.w → (y : ℤ) < demoImage.h →
        (imRef demoStore demoImage x y).isSome = true ∧
        imRef s1 im1 x y = imRef demoStore demoImage x y ∧
        s1.read (im1.data.add (y * demoImage.w.toNat + x)) = imRef demoStore demoImage x y ∧
        imRef s1 demoImage x y = imRef demoStore demoImage x y) ∧
      (∀ (x y : ℕ) (v : ℕ), (x : ℤ) < demoImage.w → (y : ℤ) < demoImage.h →
        ∃ s2 : Store ℕ, imSet s1 im1 x y v = some s2 ∧ imRef s2 im1 x y = some v ∧
          ∀ x' y' : ℕ, (x' : ℤ) < demoImage.w → (y' : ℤ) < demoImage.h →
            imRef s2 demoImage x' y' = imRef s1 demoImage x' y' ∧
            s2.read (demoImage.data.add (y' * demoImage.w.toNat + x'))
              = s1.read (demoImage.data.add (y' * demoImage.w.toNat + x'))) ∧
      (∀ (x y : ℕ) (v : ℕ), (x : ℤ) < demoImage.w → (y : ℤ) < demoImage.h →
        ∃ s2 : Store ℕ, imSet s1 demoImage x y v = some s2 ∧
          imRef s2 demoImage x y = some v ∧
          ∀ x' y' : ℕ, (x' : ℤ) < demoImage.w → (y' : ℤ) < demoImage.h →
            imRef s2 im1 x' y' = imRef s1 im1 x' y' ∧
            s2.read (im1.data.add (y' * demoImage.w.toNat + x'))
              = s1.read (im1.data.add (y' * demoImage.w.toNat + x'))) :=
  copy_is_deep demoStore demoImage (fun _ => 0)
    ⟨by decide, by decide, rfl, ⟨[1, 2, 3, 4], rfl, rfl⟩, rfl, by decide⟩

/-! ## `cvtCvMatToGrayscaleImage` -/

theorem writeN_fresh {T : Type} (s : Store T) (fresh vs : List T)
    (hlen : vs.length = fresh.length) :
    Store.writeN (s ++ [fresh]) ⟨s.length, 0⟩ vs = some (s ++ [vs]) := by
  unfold Store.writeN
  simp [hlen, set_append_last]

theorem readN_last {T : Type} (s : Store T) (vs : List T) :
    Store.readN (s ++ [vs]) ⟨s.length, 0⟩ vs.length = some vs := by
  unfold Store.readN
  simp

theorem cvt_ok (E : Extern) (junk : ℕ → ℕ) (s : Store ℕ) (inImage Image : Mat) (W H : ℕ)
    (hw : inImage.width = (W : ℤ)) (hh : inImage.height = (H : ℤ))
    (hsrc : (inImage.type = MatType.CV_8UC1 ∧ Image = inImage) ∨
      (inImage.type = MatType.CV_16UC1 ∧ Image = E.convertTo inImage Depth.CV_8U (1 / 256)) ∨
      (inImage.type = MatType.CV_8UC3 ∧ Image = E.cvtColor inImage ColorCode.CV_BGR2GRAY) ∨
      (inImage.type = MatType.CV_16UC3 ∧
        Image = E.cvtColor (E.convertTo inImage Depth.CV_8U (1 / 256))
          ColorCode.CV_BGR2GRAY))
    (hb : (W : ℤ) * (H : ℤ) ≤ INT_MAX)
    (hlen : W * H ≤ Image.data.length) :
    cvtCvMatToGrayscaleImage E junk s inImage =
      Res.ok (s ++ [Image.data.take (W * H)],
        image.mk (W : ℤ) (H : ℤ) ⟨s.length, 0⟩
          ((List.range H).map (fun i => (⟨s.length, i * W⟩ : Ptr)))) := by
  have hwrite : Store.writeN (s ++ [(List.range (W * H)).map junk]) ⟨s.length, 0⟩
      (Image.data.take (W * H)) = some (s ++ [Image.data.take (W * H)]) :=
    writeN_fresh s _ _ (by simp [hlen])
  unfold cvtCvMatToGrayscaleImage
  rcases hsrc with ⟨ht, rfl⟩ | ⟨ht, rfl⟩ | ⟨ht, rfl⟩ | ⟨ht, rfl⟩ <;>
    simp only [ht, hw, hh, create_eq s W H false junk hb, intMul_cast W H hb, toNat_mul_cast,
      Bool.false_eq_true, if_false, hlen, if_true, hwrite]

theorem cvt_throws (E : Extern) (junk : ℕ → ℕ) (s : Store ℕ) (inImage : Mat)
    (out : List Event) :
    cvtCvMatToGrayscaleImage E junk s inImage = Res.throws out ↔
      (out = [Event.cerr "Unknown format. Cannot convert cv::Mat to image<uchar>."] ∧
        ∃ code, inImage.type = MatType.other code) := by
  unfold cvtCvMatToGrayscaleImage
  cases ht : inImage.type with
  | other code =>
    simp only [Res.throws.injEq, MatType.other.injEq, exists_eq', and_true]
    exact eq_comm
  | CV_8UC1 =>
    simp only [reduceCtorEq, exists_false, and_false, iff_false]
    split
    · split
      · split <;> simp
      · simp
    · simp
  | CV_16UC1 =>
    simp only [reduceCtorEq, exists_false, and_false, iff_false]
    split
    · split
      · split <;> simp
      · simp
    · simp
  | CV_8UC3 =>
    simp only [reduceCtorEq, exists_false, and_false, iff_false]
    split
    · split
      · split <;> simp
      · simp
    · simp
  | CV_16UC3 =>
    simp only [reduceCtorEq, exists_false, and_false, iff_false]
    split
    · split
      · split <;> simp
      · simp
    · simp

theorem create_overflow {T : Type} [Zero T] (s : Store T) (w h : ℤ) (init : Bool)
    (junk : ℕ → T) (hm : intMul w h = none) : image.create s w h init junk = none := by
  unfold image.create
  simp only [hm]

/-- C11 as stated fails: an 8-bit 1-channel source of 65536 x 65536 samples is
of a supported type and holds `width*height` bytes, but the sample count
`imgWidth*imgHeight` formed in `int` is not representable, so the call has no
defined result and returns no buffer of the source's size. -/
theorem cvt_encodings_counterexample :
    (Mat.mk MatType.CV_8UC1 65536 65536 (List.replicate 4294967296 0)).data.length
      = 65536 * 65536 ∧
    intMul 65536 65536 = none ∧
    cvtCvMatToGrayscaleImage (demoExtern 0) (fun _ => 0) []
      (Mat.mk MatType.CV_8UC1 65536 65536 (List.replicate 4294967296 0)) = Res.undefined := by
  have hm : intMul 65536 65536 = none := by decide
  refine ⟨List.length_replicate _ _, hm, ?_⟩
  unfold cvtCvMatToGrayscaleImage
  simp only [create_overflow _ _ _ _ _ hm]

/-- C11 (amended).  `cvtCvMatToGrayscaleImage` throws `pnm_error`, after writing
"Unknown format. Cannot convert cv::Mat to image<uchar>." to the error stream,
exactly when the source pixel type is none of 8-bit 1-channel, 16-bit
1-channel, 8-bit 3-channel and 16-bit 3-channel.  For each of those four
types, given a source of non-negative size whose `width*height` is at most
`INT_MAX` and a converted matrix holding `width*height` bytes, it returns a
buffer with the source's width and height that holds the first `width*height`
bytes of the converted matrix: the source itself for 8-bit 1-channel,
`convertTo` with depth `CV_8U` and scale factor `1/256` for 16-bit 1-channel,
`cvtColor` with `CV_BGR2GRAY` for 8-bit 3-channel, and for 16-bit 3-channel
`cvtColor` applied to the result of that `convertTo` (the rescaling by 1/256
comes before the channel reduction). -/
theorem cvt_encodings (E : Extern) (junk : ℕ → ℕ) (s : Store ℕ) (inImage : Mat) :
    (cvtCvMatToGrayscaleImage E junk s inImage
        = Res.throws [Event.cerr "Unknown format. Cannot convert cv::Mat to image<uchar>."] ↔
      (inImage.type ≠ MatType.CV_8UC1 ∧ inImage.type ≠ MatType.CV_16UC1 ∧
        inImage.type ≠ MatType.CV_8UC3 ∧ inImage.type ≠ MatType.CV_16UC3)) ∧
    (∀ out, cvtCvMatToGrayscaleImage E junk s inImage = Res.throws out →
      out = [Event.cerr "Unknown format. Cannot convert cv::Mat to image<uchar>."]) ∧
    (∀ Image : Mat,
      ((inImage.type = MatType.CV_8UC1 ∧ Image = inImage) ∨
        (inImage.type = MatType.CV_16UC1 ∧
          Image = E.convertTo inImage Depth.CV_8U (1 / 256)) ∨
        (inImage.type = MatType.CV_8UC3 ∧
          Image = E.cvtColor inImage ColorCode.CV_BGR2GRAY) ∨
        (inImage.type = MatType.CV_16UC3 ∧
          Image = E.cvtColor (E.convertTo inImage Depth.CV_8U (1 / 256))
            ColorCode.CV_BGR2GRAY)) →
      0 ≤ inImage.width → 0 ≤ inImage.height →
      inImage.width * inImage.height ≤ INT_MAX →
      (inImage.width * inImage.height).toNat ≤ Image.data.length →
      ∃ (s1 : Store ℕ) (im : image),
        cvtCvMatToGrayscaleImage E junk s inImage = Res.ok (s1, im) ∧
        im.width = inImage.width ∧ im.height = inImage.height ∧
        image.wf s1 im ∧
        s1.readN im.data (inImage.width * inImage.height).toNat
          = some (Image.data.take (inImage.width * inImage.height).toNat)) := by
  refine ⟨?_, ?_, ?_⟩
  · rw [cvt_throws]
    cases inImage.type <;> simp
  · intro out h
    exact ((cvt_throws E junk s inImage out).mp h).1
  · intro Image hsrc hw hh hmax hlen
    obtain ⟨W, hW⟩ := Int.eq_ofNat_of_zero_le hw
    obtain ⟨H, hH⟩ := Int.eq_ofNat_of_zero_le hh
    rw [hW, hH, toNat_mul_cast] at hlen
    rw [hW, hH] at hmax
    have hcells : (Image.data.take (W * H)).length = W * H := by simp [hlen]
    refine ⟨_, _, cvt_ok E junk s inImage Image W H hW hH hsrc hmax hlen, hW.symm, hH.symm,
      wf_fresh s W H _ hcells hmax, ?_⟩
    rw [hW, hH, toNat_mul_cast]
    have := readN_last s (Image.data.take (W * H))
    rw [hcells] at this
    exact this

theorem cvt_encodings_witness :
    ∃ (s1 : Store ℕ) (im : image),
      cvtCvMatToGrayscaleImage (demoExtern 0) (fun _ => 0) []
        (Mat.mk MatType.CV_16UC3 1 1 [25600, 51200, 12800]) = Res.ok (s1, im) ∧
      im.width = (Mat.mk MatType.CV_16UC3 1 1 [25600, 51200, 12800]).width ∧
      im.height = (Mat.mk MatType.CV_16UC3 1 1 [25600, 51200, 12800]).height ∧
      image.wf s1 im ∧
      s1.readN im.data ((Mat.mk MatType.CV_16UC3 1 1 [25600, 51200, 12800]).width *
          (Mat.mk MatType.CV_16UC3 1 1 [25600, 51200, 12800]).height).toNat
        = some (((demoExtern 0).cvtColor ((demoExtern 0).convertTo
            (Mat.mk MatType.CV_16UC3 1 1 [25600, 51200, 12800]) Depth.CV_8U (1 / 256))
            ColorCode.CV_BGR2GRAY).data.take
          ((Mat.mk MatType.CV_16UC3 1 1 [25600, 51200, 12800]).width *
            (Mat.mk MatType.CV_16UC3 1 1 [25600, 51200, 12800]).height).toNat) :=
  (cvt_encodings (demoExtern 0) (fun _ => 0) []
      (Mat.mk MatType.CV_16UC3 1 1 [25600, 51200, 12800])).2.2
    ((demoExtern 0).cvtColor ((demoExtern 0).convertTo
      (Mat.mk MatType.CV_16UC3 1 1 [25600, 51200, 12800]) Depth.CV_8U (1 / 256))
      ColorCode.CV_BGR2GRAY)
    (Or.inr (Or.inr (Or.inr ⟨rfl, rfl⟩))) (by decide) (by decide) (by decide) (by decide)

/-! ## `process_FramePair`: control flow -/

theorem rectify_log (E : Extern) (img : Mat) (right_image : Bool) (log : List Event) :
    (rectify E img right_image log).2 = log ∨
    (rectify E img right_image log).2 = log ++ [Event.cerr "Error preprocessing image."] := by
  unfold rectify
  by_cases h : (E.preprocessImage img right_image).1 = 0
  · left; simp [h]
  · right; simp [h]

theorem rectify_no_matcher (E : Extern) (img : Mat) (right_image : Bool) (log : List Event)
    (w h : ℤ) (hm : Event.matcher w h ∈ (rectify E img right_image log).2) :
    Event.matcher w h ∈ log := by
  rcases rectify_log E img right_image log with e | e
  · rw [e] at hm; exact hm
  · rw [e] at hm
    simpa using hm

theorem rectified_log_no_matcher (E : Extern) (left_frame right_frame : Mat) (w h : ℤ) :
    Event.matcher w h ∉
      (rectify E right_frame true (rectify E left_frame false []).2).2 := by
  intro hm
  have h1 := rectify_no_matcher E _ _ _ w h hm
  have h2 := rectify_no_matcher E _ _ _ w h h1
  exact absurd h2 (List.not_mem_nil _)

theorem processGray_mismatch (E : Extern) (junk : ℕ → ℕ) (s : Store ℕ) (I1 I2 : image)
    (log : List Event) (lo ro : Mat)
    (hbad : I1.width ≤ 0 ∨ I1.height ≤ 0 ∨ I2.width ≤ 0 ∨ I2.height ≤ 0 ∨
      I1.width ≠ I2.width ∨ I1.height ≠ I2.height) :
    processGray E junk s I1 I2 log lo ro =
      { status := Status.returned,
        log := log ++ [Event.cerr "ERROR: Images must be of same size, but",
                       Event.cerrSizes I1.width I1.height I2.width I2.height],
        left_output_frame := lo, right_output_frame := ro } := by
  unfold processGray
  rw [if_pos hbad]

theorem processGray_matcher (E : Extern) (junk : ℕ → ℕ) (s : Store ℕ) (I1 I2 : image)
    (log : List Event) (lo ro : Mat) (w h : ℤ)
    (hlog : Event.matcher w h ∉ log)
    (hm : Event.matcher w h ∈ (processGray E junk s I1 I2 log lo ro).log) :
    0 < I1.width ∧ 0 < I1.height ∧ I2.width = I1.width ∧ I2.height = I1.height := by
  by_cases hbad : I1.width ≤ 0 ∨ I1.height ≤ 0 ∨ I2.width ≤ 0 ∨ I2.height ≤ 0 ∨
      I1.width ≠ I2.width ∨ I1.height ≠ I2.height
  · rw [processGray_mismatch E junk s I1 I2 log lo ro hbad] at hm
    simp at hm
    exact absurd hm hlog
  · simp only [not_or, not_le, ne_eq, not_not] at hbad
    exact ⟨hbad.1, hbad.2.1, hbad.2.2.2.2.1.symm, hbad.2.2.2.2.2.symm⟩

theorem process_FramePair_ok (E : Extern) (junk : ℕ → ℕ) (s : Store ℕ)
    (left_frame right_frame lo ro : Mat) (s1 s2 : Store ℕ) (I1 I2 : image)
    (h1 : cvtCvMatToGrayscaleImage E junk s (rectify E left_frame false []).1 = Res.ok (s1, I1))
    (h2 : cvtCvMatToGrayscaleImage E junk s1
      (rectify E right_frame true (rectify E left_frame false []).2).1 = Res.ok (s2, I2)) :
    process_FramePair E junk s left_frame right_frame lo ro =
      processGray E junk s2 I1 I2
        (rectify E right_frame true (rectify E left_frame false []).2).2 lo ro := by
  unfold process_FramePair
  simp only [h1, h2]

/-- C4 as stated fails: for a 640x480 left frame and a 641x480 right frame
`process_FramePair` does not fail.  It returns normally, as a successful call
does, and no `pnm_error` or other error reaches the caller; the mismatch is
only written to the error stream. -/
theorem size_validation_counterexample :
    (process_FramePair (demoExtern 0) (fun _ => 0) []
        (grayFrame 640 480 (List.replicate 307200 0))
        (grayFrame 641 480 (List.replicate 307680 0))
        (grayFrame 0 0 []) (grayFrame 0 0 [])).status = Status.returned ∧
    (process_FramePair (demoExtern 0) (fun _ => 0) []
        (grayFrame 640 480 (List.replicate 307200 0))
        (grayFrame 641 480 (List.replicate 307680 0))
        (grayFrame 0 0 []) (grayFrame 0 0 [])).status ≠ Status.thrown ∧
    (process_FramePair (demoExtern 0) (fun _ => 0) []
        (grayFrame 640 480 (List.replicate 307200 0))
        (grayFrame 641 480 (List.replicate 307680 0))
        (grayFrame 0 0 []) (grayFrame 0 0 [])).log =
      [Event.cerr "ERROR: Images must be of same size, but", Event.cerrSizes 640 480 641 480] := by
  have h1 : cvtCvMatToGrayscaleImage (demoExtern 0) (fun _ => 0) []
      (rectify (demoExtern 0) (grayFrame 640 480 (List.replicate 307200 0)) false []).1 =
      Res.ok ([] ++ [(List.replicate 307200 0).take (640 * 480)],
        image.mk ((640 : ℕ) : ℤ) ((480 : ℕ) : ℤ) ⟨([] : Store ℕ).length, 0⟩
          ((List.range 480).map (fun i => (⟨([] : Store ℕ).length, i * 640⟩ : Ptr)))) :=
    cvt_ok (demoExtern 0) (fun _ => 0) [] (grayFrame 640 480 (List.replicate 307200 0))
      (grayFrame 640 480 (List.replicate 307200 0)) 640 480 rfl rfl (Or.inl ⟨rfl, rfl⟩)
      (by decide)
      (by show 640 * 480 ≤ (List.replicate 307200 0).length; rw [List.length_replicate])
  have h2 : cvtCvMatToGrayscaleImage (demoExtern 0) (fun _ => 0)
      ([] ++ [(List.replicate 307200 0).take (640 * 480)])
      (rectify (demoExtern 0) (grayFrame 641 480 (List.replicate 307680 0)) true
        (rectify (demoExtern 0) (grayFrame 640 480 (List.replicate 307200 0)) false []).2).1 =
      Res.ok (([] ++ [(List.replicate 307200 0).take (640 * 480)]) ++
          [(List.replicate 307680 0).take (641 * 480)],
        image.mk ((641 : ℕ) : ℤ) ((480 : ℕ) : ℤ)
          ⟨(([] : Store ℕ) ++ [(List.replicate 307200 0).take (640 * 480)]).length, 0⟩
          ((List.range 480).map (fun i =>
            (⟨(([] : Store ℕ) ++ [(List.replicate 307200 0).take (640 * 480)]).length,
              i * 641⟩ : Ptr)))) :=
    cvt_ok (demoExtern 0) (fun _ => 0) _ (grayFrame 641 480 (List.replicate 307680 0))
      (grayFrame 641 480 (List.replicate 307680 0)) 641 480 rfl rfl (Or.inl ⟨rfl, rfl⟩)
      (by decide)
      (by show 641 * 480 ≤ (List.replicate 307680 0).length; rw [List.length_replicate])
  rw [process_FramePair_ok (demoExtern 0) (fun _ => 0) [] _ _ _ _ _ _ _ _ h1 h2,
    processGray_mismatch (demoExtern 0) (fun _ => 0) _ _ _ _ _ _
      (Or.inr (Or.inr (Or.inr (Or.inr (Or.inl (by decide))))))]
  exact ⟨rfl, by decide, rfl⟩

/-- C4 (amended).  In `process_FramePair`, when the two grayscale buffers `I1`,
`I2` have a width or height that is not positive, or different widths, or
different heights, the call writes the diagnostic "ERROR: Images must be of
same size, but" with the four sizes to the error stream and returns normally
at once, without raising an error: the matcher is not invoked and neither
output frame is written.  The matcher is invoked only when both buffers exist
and have identical positive width and height. -/
theorem size_validation (E : Extern) (junk : ℕ → ℕ) (s : Store ℕ)
    (left_frame right_frame lo ro : Mat) :
    (∀ (s1 s2 : Store ℕ) (I1 I2 : image),
      cvtCvMatToGrayscaleImage E junk s (rectify E left_frame false []).1 = Res.ok (s1, I1) →
      cvtCvMatToGrayscaleImage E junk s1
        (rectify E right_frame true (rectify E left_frame false []).2).1 = Res.ok (s2, I2) →
      (I1.width ≤ 0 ∨ I1.height ≤ 0 ∨ I2.width ≤ 0 ∨ I2.height ≤ 0 ∨
        I1.width ≠ I2.width ∨ I1.height ≠ I2.height) →
      (process_FramePair E junk s left_frame right_frame lo ro).status = Status.returned ∧
      (process_FramePair E junk s left_frame right_frame lo ro).log =
        (rectify E right_frame true (rectify E left_frame false []).2).2 ++
          [Event.cerr "ERROR: Images must be of same size, but",
           Event.cerrSizes I1.width I1.height I2.width I2.height] ∧
      (process_FramePair E junk s left_frame right_frame lo ro).left_output_frame = lo ∧
      (process_FramePair E junk s left_frame right_frame lo ro).right_output_frame = ro ∧
      ¬ (process_FramePair E junk s left_frame right_frame lo ro).matcherInvoked) ∧
    ((process_FramePair E junk s left_frame right_frame lo ro).matcherInvoked →
      ∃ (s1 s2 : Store ℕ) (I1 I2 : image),
        cvtCvMatToGrayscaleImage E junk s (rectify E left_frame false []).1 = Res.ok (s1, I1) ∧
        cvtCvMatToGrayscaleImage E junk s1
          (rectify E right_frame true (rectify E left_frame false []).2).1 = Res.ok (s2, I2) ∧
        0 < I1.width ∧ 0 < I1.height ∧ I2.width = I1.width ∧ I2.height = I1.height) := by
  constructor
  · intro s1 s2 I1 I2 h1 h2 hbad
    rw [process_FramePair_ok E junk s left_frame right_frame lo ro s1 s2 I1 I2 h1 h2,
      processGray_mismatch E junk s2 I1 I2 _ lo ro hbad]
    refine ⟨rfl, rfl, rfl, rfl, ?_⟩
    rintro ⟨w, h, hm⟩
    have hm' : Event.matcher w h ∈
        (rectify E right_frame true (rectify E left_frame false []).2).2 ++
          [Event.cerr "ERROR: Images must be of same size, but",
           Event.cerrSizes I1.width I1.height I2.width I2.height] := hm
    simp at hm'
    exact rectified_log_no_matcher E left_frame right_frame w h hm'
  · rintro ⟨w, h, hm⟩
    cases h1 : cvtCvMatToGrayscaleImage E junk s (rectify E left_frame false []).1 with
    | throws out =>
      unfold process_FramePair at hm
      simp only [h1] at hm
      rw [((cvt_throws E junk s _ out).mp h1).1] at hm
      simp only [List.mem_append, List.mem_singleton, reduceCtorEq, or_false] at hm
      exact absurd hm (rectified_log_no_matcher E left_frame right_frame w h)
    | undefined =>
      unfold process_FramePair at hm
      simp only [h1] at hm
      exact absurd hm (rectified_log_no_matcher E left_frame right_frame w h)
    | ok r1 =>
      obtain ⟨s1, I1⟩ := r1
      cases h2 : cvtCvMatToGrayscaleImage E junk s1
          (rectify E right_frame true (rectify E left_frame false []).2).1 with
      | throws out =>
        unfold process_FramePair at hm
        simp only [h1, h2] at hm
        rw [((cvt_throws E junk s1 _ out).mp h2).1] at hm
        simp only [List.mem_append, List.mem_singleton, reduceCtorEq, or_false] at hm
        exact absurd hm (rectified_log_no_matcher E left_frame right_frame w h)
      | undefined =>
        unfold process_FramePair at hm
        simp only [h1, h2] at hm
        exact absurd hm (rectified_log_no_matcher E left_frame right_frame w h)
      | ok r2 =>
        obtain ⟨s2, I2⟩ := r2
        rw [process_FramePair_ok E junk s left_frame right_frame lo ro s1 s2 I1 I2 h1 h2] at hm
        exact ⟨s1, s2, I1, I2, rfl, h2,
          processGray_matcher E junk s2 I1 I2 _ lo ro w h
            (rectified_log_no_matcher E left_frame right_frame w h) hm⟩

theorem normalize_ones :
    normalize (fun _ => Flt.fin 1) (fun _ => Flt.fin 1) 1 = some ([255], [255]) := by
  norm_num [normalize, copyLoop, dispMaxLoop, dispMaxStep, scaleSample, Flt.gt, Flt.lt,
    Flt.mul, Flt.div, Flt.max, Flt.toUint8, Flt.trunc]
  decide

theorem processGray_ones (code : ℤ) (log : List Event) (lo ro : Mat) :
    processGray (demoExtern code) (fun _ => 0) [[7], [9]] (image.mk 1 1 ⟨0, 0⟩ [⟨0, 0⟩])
        (image.mk 1 1 ⟨1, 0⟩ [⟨1, 0⟩]) log lo ro =
      { status := Status.returned, log := log ++ [Event.matcher 1 1],
        left_output_frame := grayFrame 1 1 [255],
        right_output_frame := grayFrame 1 1 [255] } := by
  have hn : (1 : ℤ).toNat = 1 := by decide
  have hmul : intMul 1 1 = some 1 := by decide
  unfold processGray
  simp only [image.width, image.height]
  rw [if_neg (by decide)]
  have hr1 : Store.readN ([[7], [9]] : Store ℕ) ⟨0, 0⟩ 1 = some [7] := by decide
  have hr2 : Store.readN ([[7], [9]] : Store ℕ) ⟨1, 0⟩ 1 = some [9] := by decide
  simp only [hmul, hn, hr1, hr2, demoExtern, normalize_ones]
  rfl

theorem size_validation_witness :
    (process_FramePair (demoExtern 0) (fun _ => 0) [] (grayFrame 2 1 [10, 20])
        (grayFrame 3 1 [1, 2, 3]) (grayFrame 0 0 []) (grayFrame 0 0 [])).status
      = Status.returned ∧
    (process_FramePair (demoExtern 0) (fun _ => 0) [] (grayFrame 2 1 [10, 20])
        (grayFrame 3 1 [1, 2, 3]) (grayFrame 0 0 []) (grayFrame 0 0 [])).log
      = (rectify (demoExtern 0) (grayFrame 3 1 [1, 2, 3]) true
          (rectify (demoExtern 0) (grayFrame 2 1 [10, 20]) false []).2).2 ++
        [Event.cerr "ERROR: Images must be of same size, but",
         Event.cerrSizes (image.mk 2 1 ⟨0, 0⟩ [⟨0, 0⟩]).width (image.mk 2 1 ⟨0, 0⟩ [⟨0, 0⟩]).height
           (image.mk 3 1 ⟨1, 0⟩ [⟨1, 0⟩]).width (image.mk 3 1 ⟨1, 0⟩ [⟨1, 0⟩]).height] ∧
    (process_FramePair (demoExtern 0) (fun _ => 0) [] (grayFrame 2 1 [10, 20])
        (grayFrame 3 1 [1, 2, 3]) (grayFrame 0 0 []) (grayFrame 0 0 [])).left_output_frame
      = grayFrame 0 0 [] ∧
    (process_FramePair (demoExtern 0) (fun _ => 0) [] (grayFrame 2 1 [10, 20])
        (grayFrame 3 1 [1, 2, 3]) (grayFrame 0 0 []) (grayFrame 0 0 [])).right_output_frame
      = grayFrame 0 0 [] ∧
    ¬ (process_FramePair (demoExtern 0) (fun _ => 0) [] (grayFrame 2 1 [10, 20])
        (grayFrame 3 1 [1, 2, 3]) (grayFrame 0 0 []) (grayFrame 0 0 [])).matcherInvoked ∧
    ∃ (s1 s2 : Store ℕ) (I1 I2 : image),
      cvtCvMatToGrayscaleImage (demoExtern 0) (fun _ => 0) []
        (rectify (demoExtern 0) (grayFrame 1 1 [7]) false []).1 = Res.ok (s1, I1) ∧
      cvtCvMatToGrayscaleImage (demoExtern 0) (fun _ => 0) s1
        (rectify (demoExtern 0) (grayFrame 1 1 [9]) true
          (rectify (demoExtern 0) (grayFrame 1 1 [7]) false []).2).1 = Res.ok (s2, I2) ∧
      0 < I1.width ∧ 0 < I1.height ∧ I2.width = I1.width ∧ I2.height = I1.height :=
  ⟨((size_validation (demoExtern 0) (fun _ => 0) [] (grayFrame 2 1 [10, 20])
      (grayFrame 3 1 [1, 2, 3]) (grayFrame 0 0 []) (grayFrame 0 0 [])).1
    [[10, 20]] [[10, 20], [1, 2, 3]] (image.mk 2 1 ⟨0, 0⟩ [⟨0, 0⟩]) (image.mk 3 1 ⟨1, 0⟩ [⟨1, 0⟩])
    rfl rfl (by decide)).1,
   ((size_validation (demoExtern 0) (fun _ => 0) [] (grayFrame 2 1 [10, 20])
      (grayFrame 3 1 [1, 2, 3]) (grayFrame 0 0 []) (grayFrame 0 0 [])).1
    [[10, 20]] [[10, 20], [1, 2, 3]] (image.mk 2 1 ⟨0, 0⟩ [⟨0, 0⟩]) (image.mk 3 1 ⟨1, 0⟩ [⟨1, 0⟩])
    rfl rfl (by decide)).2.1,
   ((size_validation (demoExtern 0) (fun _ => 0) [] (grayFrame 2 1 [10, 20])
      (grayFrame 3 1 [1, 2, 3]) (grayFrame 0 0 []) (grayFrame 0 0 [])).1
    [[10, 20]] [[10, 20], [1, 2, 3]] (image.mk 2 1 ⟨0, 0⟩ [⟨0, 0⟩]) (image.mk 3 1 ⟨1, 0⟩ [⟨1, 0⟩])
    rfl rfl (by decide)).2.2.1,
   ((size_validation (demoExtern 0) (fun _ => 0) [] (grayFrame 2 1 [10, 20])
      (grayFrame 3 1 [1, 2, 3]) (grayFrame 0 0 []) (grayFrame 0 0 [])).1
    [[10, 20]] [[10, 20], [1, 2, 3]] (image.mk 2 1 ⟨0, 0⟩ [⟨0, 0⟩]) (image.mk 3 1 ⟨1, 0⟩ [⟨1, 0⟩])
    rfl rfl (by decide)).2.2.2.1,
   ((size_validation (demoExtern 0) (fun _ => 0) [] (grayFrame 2 1 [10, 20])
      (grayFrame 3 1 [1, 2, 3]) (grayFrame 0 0 []) (grayFrame 0 0 [])).1
    [[10, 20]] [[10, 20], [1, 2, 3]] (image.mk 2 1 ⟨0, 0⟩ [⟨0, 0⟩]) (image.mk 3 1 ⟨1, 0⟩ [⟨1, 0⟩])
    rfl rfl (by decide)).2.2.2.2,
   (size_validation (demoExtern 0) (fun _ => 0) [] (grayFrame 1 1 [7]) (grayFrame 1 1 [9])
      (grayFrame 0 0 []) (grayFrame 0 0 [])).2
    ⟨1, 1, by
      rw [process_FramePair_ok (demoExtern 0) (fun _ => 0) [] (grayFrame 1 1 [7])
        (grayFrame 1 1 [9]) (grayFrame 0 0 []) (grayFrame 0 0 []) [[7]] [[7], [9]]
        (image.mk 1 1 ⟨0, 0⟩ [⟨0, 0⟩]) (image.mk 1 1 ⟨1, 0⟩ [⟨1, 0⟩]) rfl rfl,
        processGray_ones]
      simp⟩⟩

/-- C5 (code does not do this).  With a preprocessing step that fails (result
code `1`) for both frames, `process_FramePair` only prints "Error preprocessing
image." twice and carries on: it returns normally, the matcher is invoked, and
both output frames are written. -/
theorem rectify_failure_not_aborted :
    (process_FramePair (demoExtern 1) (fun _ => 0) [] (grayFrame 1 1 [7]) (grayFrame 1 1 [9])
        (grayFrame 0 0 []) (grayFrame 0 0 [])).status = Status.returned ∧
    (process_FramePair (demoExtern 1) (fun _ => 0) [] (grayFrame 1 1 [7]) (grayFrame 1 1 [9])
        (grayFrame 0 0 []) (grayFrame 0 0 [])).log =
      [Event.cerr "Error preprocessing image.", Event.cerr "Error preprocessing image.",
       Event.matcher 1 1] ∧
    (process_FramePair (demoExtern 1) (fun _ => 0) [] (grayFrame 1 1 [7]) (grayFrame 1 1 [9])
        (grayFrame 0 0 []) (grayFrame 0 0 [])).left_output_frame = grayFrame 1 1 [255] ∧
    (process_FramePair (demoExtern 1) (fun _ => 0) [] (grayFrame 1 1 [7]) (grayFrame 1 1 [9])
        (grayFrame 0 0 []) (grayFrame 0 0 [])).right_output_frame = grayFrame 1 1 [255] := by
  rw [process_FramePair_ok (demoExtern 1) (fun _ => 0) [] (grayFrame 1 1 [7])
    (grayFrame 1 1 [9]) (grayFrame 0 0 []) (grayFrame 0 0 []) [[7]] [[7], [9]]
    (image.mk 1 1 ⟨0, 0⟩ [⟨0, 0⟩]) (image.mk 1 1 ⟨1, 0⟩ [⟨1, 0⟩]) rfl rfl,
    processGray_ones]
  exact ⟨rfl, rfl, rfl, rfl⟩

/-! ## `updateDistanceGrid` -/

theorem set_same {α : Type} (l : List α) (i : ℕ) (a : α) (h : l[i]? = some a) :
    l.set i a = l := by
  induction l generalizing i with
  | nil => rfl
  | cons b l ih =>
    cases i with
    | zero =>
      simp only [List.getElem?_cons_zero, Option.some.injEq] at h
      rw [h]; rfl
    | succ i =>
      simp only [List.getElem?_cons_succ] at h
      simp only [List.set_cons_succ, ih i h]

theorem copyCell_eq (im : distance_image) (d : List (List Flt)) (x y : ℕ) (v : Flt)
    (row : List Flt) (hv : im.data[y * im.width + x]? = some v) (hrow : d[y]? = some row)
    (hx : x < row.length) :
    im.copyCell x y d = some (d.set y (row.set x v)) := by
  simp [distance_image.copyCell, hv, hrow, hx]

theorem cellAt_set_self (d : List (List Flt)) (x y : ℕ) (v : Flt) (row : List Flt)
    (hrow : d[y]? = some row) (hx : x < row.length) :
    cellAt (d.set y (row.set x v)) x y = some v := by
  have hy : y < d.length := block_lt hrow
  simp [cellAt, List.getElem?_set_self hy, hx]

theorem cellAt_set_other (d : List (List Flt)) (x y x' y' : ℕ) (v : Flt) (row : List Flt)
    (hrow : d[y]? = some row) (hne : x' ≠ x ∨ y' ≠ y) :
    cellAt (d.set y (row.set x v)) x' y' = cellAt d x' y' := by
  have hy : y < d.length := block_lt hrow
  unfold cellAt
  by_cases hyy : y' = y
  · subst hyy
    rcases hne with hx | hy'
    · rw [List.getElem?_set_self hy, hrow]
      exact List.getElem?_set_ne (Ne.symm hx)
    · exact absurd rfl hy'
  · rw [List.getElem?_set_ne (Ne.symm hyy)]

theorem bandFits_set (d : List (List Flt)) (W H x y : ℕ) (v : Flt) (row : List Flt)
    (hfit : bandFits d W H) (hrow : d[y]? = some row) :
    bandFits (d.set y (row.set x v)) W H := by
  have hy : y < d.length := block_lt hrow
  intro y' hy'
  by_cases hyy : y' = y
  · subst hyy
    obtain ⟨r, hr, hlen⟩ := hfit y' hy'
    rw [hrow] at hr
    refine ⟨row.set x v, List.getElem?_set_self hy, ?_⟩
    rw [List.length_set, Option.some.inj hr]; exact hlen
  · obtain ⟨r, hr, hlen⟩ := hfit y' hy'
    exact ⟨r, by rw [List.getElem?_set_ne (Ne.symm hyy)]; exact hr, hlen⟩

theorem data_some (im : distance_image) (hdata : im.data.length = im.width * im.height)
    {x y : ℕ} (hx : x < im.width) (hy : y < im.height) :
    ∃ v, im.data[y * im.width + x]? = some v := by
  have hlt : y * im.width + x < im.data.length := by rw [hdata]; exact index_lt hx hy
  exact ⟨im.data[y * im.width + x], List.getElem?_eq_getElem hlt⟩

theorem copyColumn_spec (im : distance_image) (hdata : im.data.length = im.width * im.height)
    (x : ℕ) (hx : x < im.width) (d : List (List Flt))
    (hfit : bandFits d im.width im.height) (k : ℕ) (hk : k ≤ im.height) :
    ∃ d1, im.copyColumn x k d = some d1 ∧ bandFits d1 im.width im.height ∧
      (∀ y, y < k → cellAt d1 x y = im.data[y * im.width + x]?) ∧
      (∀ x' y', x' ≠ x → cellAt d1 x' y' = cellAt d x' y') := by
  induction k with
  | zero =>
    exact ⟨d, rfl, hfit, fun y hy => absurd hy (Nat.not_lt_zero y), fun _ _ _ => rfl⟩
  | succ k ih =>
    obtain ⟨d1, hd1, hfit1, hcells, hother⟩ := ih (Nat.le_of_succ_le hk)
    have hky : k < im.height := hk
    obtain ⟨v, hv⟩ := data_some im hdata hx hky
    obtain ⟨row, hrow, hlen⟩ := hfit1 k hky
    have hxr : x < row.length := Nat.lt_of_lt_of_le hx hlen
    refine ⟨d1.set k (row.set x v), ?_, bandFits_set d1 _ _ x k v row hfit1 hrow, ?_, ?_⟩
    · show (im.copyColumn x k d).bind (im.copyCell x k) = _
      rw [hd1]
      exact copyCell_eq im d1 x k v row hv hrow hxr
    · intro y hy
      rcases Nat.lt_succ_iff_lt_or_eq.mp hy with h | h
      · rw [cellAt_set_other d1 x k x y v row hrow (Or.inr (Nat.ne_of_lt h))]
        exact hcells y h
      · subst h
        rw [cellAt_set_self d1 x y v row hrow hxr, hv]
    · intro x' y' hne
      rw [cellAt_set_other d1 x k x' y' v row hrow (Or.inl hne)]
      exact hother x' y' hne

theorem copyColumns_spec (im : distance_image) (hdata : im.data.length = im.width * im.height)
    (d : List (List Flt)) (hfit : bandFits d im.width im.height) (k : ℕ) (hk : k ≤ im.width) :
    ∃ d1, im.copyColumns k d = some d1 ∧ bandFits d1 im.width im.height ∧
      (∀ x y, x < k → y < im.height → cellAt d1 x y = im.data[y * im.width + x]?) := by
  induction k with
  | zero =>
    exact ⟨d, rfl, hfit, fun x y hx _ => absurd hx (Nat.not_lt_zero x)⟩
  | succ k ih =>
    obtain ⟨d1, hd1, hfit1, hcells⟩ := ih (Nat.le_of_succ_le hk)
    obtain ⟨d2, hd2, hfit2, hcol, hother⟩ :=
      copyColumn_spec im hdata k hk d1 hfit1 im.height (Nat.le_refl _)
    refine ⟨d2, ?_, hfit2, ?_⟩
    · show (im.copyColumns k d).bind (im.copyColumn k im.height) = _
      rw [hd1]; exact hd2
    · intro x y hx hy
      rcases Nat.lt_succ_iff_lt_or_eq.mp hx with h | h
      · rw [hother x y (Nat.ne_of_lt h)]
        exact hcells x y h hy
      · subst h
        exact hcol y hy

theorem copyCell_same (im : distance_image) (d : List (List Flt)) (x y : ℕ) (v : Flt)
    (hv : im.data[y * im.width + x]? = some v) (hc : cellAt d x y = some v) :
    im.copyCell x y d = some d := by
  unfold cellAt at hc
  cases hrow : d[y]? with
  | none => rw [hrow] at hc; exact absurd hc (by simp)
  | some row =>
    rw [hrow] at hc
    have hx : x < row.length := block_lt hc
    rw [copyCell_eq im d x y v row hv hrow hx, set_same row x v hc, set_same d y row hrow]

theorem copyColumn_same (im : distance_image) (hdata : im.data.length = im.width * im.height)
    (x : ℕ) (hx : x < im.width) (d : List (List Flt)) (k : ℕ) (hk : k ≤ im.height)
    (hc : ∀ y, y < k → cellAt d x y = im.data[y * im.width + x]?) :
    im.copyColumn x k d = some d := by
  induction k with
  | zero => rfl
  | succ k ih =>
    have hky : k < im.height := hk
    obtain ⟨v, hv⟩ := data_some im hdata hx hky
    show (im.copyColumn x k d).bind (im.copyCell x k) = _
    rw [ih (Nat.le_of_succ_le hk) (fun y hy => hc y (Nat.lt_succ_of_lt hy))]
    exact copyCell_same im d x k v hv (by rw [hc k (Nat.lt_succ_self k), hv])

theorem copyColumns_same (im : distance_image) (hdata : im.data.length = im.width * im.height)
    (d : List (List Flt)) (k : ℕ) (hk : k ≤ im.width)
    (hc : ∀ x y, x < k → y < im.height → cellAt d x y = im.data[y * im.width + x]?) :
    im.copyColumns k d = some d := by
  induction k with
  | zero => rfl
  | succ k ih =>
    show (im.copyColumns k d).bind (im.copyColumn k im.height) = _
    rw [ih (Nat.le_of_succ_le hk) (fun x y hx hy => hc x y (Nat.lt_succ_of_lt hx) hy)]
    exact copyColumn_same im hdata k hk d im.height (Nat.le_refl _)
      (fun y hy => hc k y (Nat.lt_succ_self k) hy)

theorem bandFits_new (W H : ℕ) (a b c e : Flt) :
    bandFits (DistanceGrid.new W H a b c e).distance W H := by
  intro y hy
  refine ⟨List.replicate W (Flt.fin 0), ?_, by simp⟩
  simp [DistanceGrid.new, List.getElem?_replicate, hy]

theorem update_some (im : distance_image) (hdata : im.data.length = im.width * im.height)
    (heap : List DistanceGrid) (g : ℕ) (G : DistanceGrid) (hG : heap[g]? = some G)
    (hfit : bandFits G.distance im.width im.height) :
    ∃ d, im.copyColumns im.width G.distance = some d ∧
      (∀ x y, x < im.width → y < im.height → cellAt d x y = im.data[y * im.width + x]?) ∧
      im.updateDistanceGrid heap (some g)
        = some (false, some g, heap.set g { G with distance := d }) := by
  obtain ⟨d, hd, _, hcells⟩ := copyColumns_spec im hdata G.distance hfit im.width (Nat.le_refl _)
  refine ⟨d, hd, hcells, ?_⟩
  simp only [distance_image.updateDistanceGrid, hG, hd]

theorem update_none (im : distance_image) (heap : List DistanceGrid) :
    im.updateDistanceGrid heap none =
      (im.updateDistanceGrid
        (heap ++ [DistanceGrid.new im.width im.height im.scale_x im.scale_y
          im.center_x im.center_y]) (some heap.length)).map
        (fun r => (true, r.2.1, r.2.2)) := by
  simp only [distance_image.updateDistanceGrid]
  cases (heap ++ [DistanceGrid.new im.width im.height im.scale_x im.scale_y
          im.center_x im.center_y])[heap.length]? with
  | none => rfl
  | some G =>
    simp only []
    cases im.copyColumns im.width G.distance <;> rfl

/-- C6.  `updateDistanceGrid` returns `true` exactly when the supplied handle is
null.  In that case the handle afterwards refers to a new grid, added to the
heap, that was constructed from the distance image's `width`, `height`,
`scale_x`, `scale_y`, `center_x`, `center_y` (only its band has been filled).
With a non-null handle the same handle is kept and the result is `false`. -/
theorem grid_creation_flag (im : distance_image) (heap : List DistanceGrid) :
    (∀ grid r, im.updateDistanceGrid heap grid = some r → (r.1 = true ↔ grid = none)) ∧
    (im.data.length = im.width * im.height →
      ∃ d, im.updateDistanceGrid heap none = some (true, some heap.length,
        heap ++ [{ DistanceGrid.new im.width im.height im.scale_x im.scale_y
                    im.center_x im.center_y with distance := d }])) ∧
    (∀ g r, im.updateDistanceGrid heap (some g) = some r →
      r.1 = false ∧ r.2.1 = some g ∧ r.2.2.length = heap.length) ∧
    (∀ g G, heap[g]? = some G → im.data.length = im.width * im.height →
      bandFits G.distance im.width im.height →
      ∃ d, im.updateDistanceGrid heap (some g)
        = some (false, some g, heap.set g { G with distance := d })) := by
  have hsome : ∀ g r, im.updateDistanceGrid heap (some g) = some r →
      r.1 = false ∧ r.2.1 = some g ∧ r.2.2.length = heap.length := by
    intro g r hr
    cases hG : heap[g]? with
    | none => simp [distance_image.updateDistanceGrid, hG] at hr
    | some G =>
      cases hd : im.copyColumns im.width G.distance with
      | none => simp [distance_image.updateDistanceGrid, hG, hd] at hr
      | some d =>
        simp only [distance_image.updateDistanceGrid, hG, hd, Option.some.injEq] at hr
        subst hr
        exact ⟨rfl, rfl, List.length_set _ _ _⟩
  refine ⟨?_, ?_, hsome, ?_⟩
  · intro grid r hr
    cases grid with
    | none =>
      rw [update_none] at hr
      cases hu : im.updateDistanceGrid
        (heap ++ [DistanceGrid.new im.width im.height im.scale_x im.scale_y
          im.center_x im.center_y]) (some heap.length) with
      | none => rw [hu] at hr; exact absurd hr (by simp)
      | some r' =>
        rw [hu] at hr
        simp only [Option.map_some', Option.some.injEq] at hr
        subst hr
        exact ⟨fun _ => rfl, fun _ => rfl⟩
    | some g =>
      have h := (hsome g r hr).1
      constructor
      · intro ht; rw [h] at ht; exact absurd ht (by decide)
      · intro hn; exact absurd hn (by simp)
  · intro hdata
    obtain ⟨d, _, _, hu⟩ := update_some im hdata
      (heap ++ [DistanceGrid.new im.width im.height im.scale_x im.scale_y
          im.center_x im.center_y]) heap.length _ (getElem?_append_last _ _)
      (bandFits_new _ _ _ _ _ _)
    refine ⟨d, ?_⟩
    rw [update_none, hu, set_append_last]
    rfl
  · intro g G hG hdata hfit
    obtain ⟨d, _, _, hu⟩ := update_some im hdata heap g G hG hfit
    exact ⟨d, hu⟩

theorem grid_creation_flag_witness :
    ∃ d, demoDistance.updateDistanceGrid [] none = some (true, some ([] : List DistanceGrid).length,
      [] ++ [{ DistanceGrid.new demoDistance.width demoDistance.height demoDistance.scale_x
                demoDistance.scale_y demoDistance.center_x demoDistance.center_y
              with distance := d }]) :=
  (grid_creation_flag demoDistance []).2.1 rfl

/-- C7 as stated fails: a 2x2 distance image whose data has `2*2` samples,
updated into a supplied 1x1 grid, leaves the grid's band; the band has no
element `distance[1][0]` to hold `data[1*2+0]`, and the call has no defined
result. -/
theorem exact_grid_copy_counterexample :
    demoDistance.data.length = demoDistance.width * demoDistance.height ∧
    cellAt (DistanceGrid.new 1 1 (Flt.fin 1) (Flt.fin 1) (Flt.fin 0) (Flt.fin 0)).distance 0 1
      = none ∧
    demoDistance.updateDistanceGrid
      [DistanceGrid.new 1 1 (Flt.fin 1) (Flt.fin 1) (Flt.fin 0) (Flt.fin 0)] (some 0) = none := by
  refine ⟨rfl, rfl, ?_⟩
  rfl

/-- C7 (amended).  For a distance image whose data has `width*height` samples,
and a handle that is null or refers to a grid whose band has at least `height`
rows of at least `width` cells, `updateDistanceGrid` succeeds and afterwards
the grid's band satisfies `distance[y][x] = data[y*width + x]` for every `x` in
`[0,width)` and `y` in `[0,height)`, each value copied unchanged; a second call
on the resulting handle returns `false` and leaves the heap, and so the grid
contents, unchanged. -/
theorem exact_grid_copy (im : distance_image) (heap : List DistanceGrid) (grid : Option ℕ)
    (hdata : im.data.length = im.width * im.height)
    (hgrid : ∀ g, grid = some g →
      ∃ G, heap[g]? = some G ∧ bandFits G.distance im.width im.height) :
    ∃ (res : Bool) (g : ℕ) (heap1 : List DistanceGrid) (G1 : DistanceGrid),
      im.updateDistanceGrid heap grid = some (res, some g, heap1) ∧
      heap1[g]? = some G1 ∧
      (∀ x y, x < im.width → y < im.height →
        ∃ v, im.data[y * im.width + x]? = some v ∧ cellAt G1.distance x y = some v) ∧
      im.updateDistanceGrid heap1 (some g) = some (false, some g, heap1) := by
  have key : ∀ (hp : List DistanceGrid) (g : ℕ) (G : DistanceGrid), hp[g]? = some G →
      bandFits G.distance im.width im.height →
      ∃ (heap1 : List DistanceGrid) (G1 : DistanceGrid),
        im.updateDistanceGrid hp (some g) = some (false, some g, heap1) ∧
        heap1[g]? = some G1 ∧
        (∀ x y, x < im.width → y < im.height →
          ∃ v, im.data[y * im.width + x]? = some v ∧ cellAt G1.distance x y = some v) ∧
        im.updateDistanceGrid heap1 (some g) = some (false, some g, heap1) := by
    intro hp g G hG hfit
    obtain ⟨d, _, hcells, hu⟩ := update_some im hdata hp g G hG hfit
    have hg : g < hp.length := block_lt hG
    have h1 : (hp.set g { G with distance := d })[g]? = some { G with distance := d } :=
      List.getElem?_set_self hg
    refine ⟨_, _, hu, h1, ?_, ?_⟩
    · intro x y hx hy
      obtain ⟨v, hv⟩ := data_some im hdata hx hy
      exact ⟨v, hv, by rw [← hv]; exact hcells x y hx hy⟩
    · have hsame : im.copyColumns im.width d = some d :=
        copyColumns_same im hdata d im.width (Nat.le_refl _) hcells
      simp only [distance_image.updateDistanceGrid, h1, hsame]
      rw [set_same _ g _ h1]
  cases grid with
  | some g =>
    obtain ⟨G, hG, hfit⟩ := hgrid g rfl
    obtain ⟨heap1, G1, hu, h1, hc, h2⟩ := key heap g G hG hfit
    exact ⟨false, g, heap1, G1, hu, h1, hc, h2⟩
  | none =>
    obtain ⟨heap1, G1, hu, h1, hc, h2⟩ := key
      (heap ++ [DistanceGrid.new im.width im.height im.scale_x im.scale_y
          im.center_x im.center_y]) heap.length _ (getElem?_append_last _ _)
      (bandFits_new _ _ _ _ _ _)
    refine ⟨true, heap.length, heap1, G1, ?_, h1, hc, h2⟩
    rw [update_none, hu]
    rfl

theorem exact_grid_copy_witness :
    ∃ (res : Bool) (g : ℕ) (heap1 : List DistanceGrid) (G1 : DistanceGrid),
      demoDistance.updateDistanceGrid
        [DistanceGrid.new 3 2 (Flt.fin 1) (Flt.fin 1) (Flt.fin 0) (Flt.fin 0)] (some 0)
        = some (res, some g, heap1) ∧
      heap1[g]? = some G1 ∧
      (∀ x y, x < demoDistance.width → y < demoDistance.height →
        ∃ v, demoDistance.data[y * demoDistance.width + x]? = some v ∧
          cellAt G1.distance x y = some v) ∧
      demoDistance.updateDistanceGrid heap1 (some g) = some (false, some g, heap1) :=
  exact_grid_copy demoDistance
    [DistanceGrid.new 3 2 (Flt.fin 1) (Flt.fin 1) (Flt.fin 0) (Flt.fin 0)] (some 0) rfl
    (fun g hg => ⟨DistanceGrid.new 3 2 (Flt.fin 1) (Flt.fin 1) (Flt.fin 0) (Flt.fin 0),
      by rw [← Option.some.inj hg]; rfl,
      fun y hy => ⟨List.replicate 3 (Flt.fin 0),
        by
          have h2 : y < 2 := hy
          interval_cases y <;> rfl,
        by decide⟩⟩)

/-! ## `loadPGM` -/

theorem getline_length {input next : List ℕ} (h : getline input = some next) :
    next.length < input.length := by
  unfold getline at h
  have hle : (input.dropWhile (fun c => c != 10)).length ≤ input.length :=
    (List.dropWhile_suffix _).length_le
  cases hd : input.dropWhile (fun c => c != 10) with
  | nil => rw [hd] at h; simp at h
  | cons c after =>
    rw [hd] at h hle
    by_cases hl : (input.takeWhile (fun c => c != 10)).length ≤ BUF_SIZE - 1
    · simp only [hl, if_true, Option.some.injEq] at h
      rw [← h]
      exact hle
    · simp [hl] at h

theorem skipComments_fuel (f1 : ℕ) :
    ∀ (f2 : ℕ) (input : List ℕ), input.length < f1 → input.length < f2 →
      skipComments f1 input = skipComments f2 input := by
  induction f1 with
  | zero => intro f2 input h1; exact absurd h1 (Nat.not_lt_zero _)
  | succ f1 ih =>
    intro f2 input h1 h2
    cases f2 with
    | zero => exact absurd h2 (Nat.not_lt_zero _)
    | succ f2 =>
      have hle : (input.dropWhile isspace).length ≤ input.length :=
        (List.dropWhile_suffix _).length_le
      unfold skipComments
      cases hd : input.dropWhile isspace with
      | nil => rfl
      | cons c after =>
        rw [hd] at hle
        by_cases hc : c = 35
        · simp only [hc, if_true]
          cases hg : getline after with
          | none => rfl
          | some next =>
            have hn := getline_length hg
            have hlen : (c :: after).length = after.length + 1 := rfl
            exact ih f2 next (by omega) (by omega)
        · simp only [hc, if_false]

/-- The fuel given to the comment loop by `pnm_read` is never exhausted: any
larger amount gives the same result. -/
theorem pnm_read_fuel (input : List ℕ) (fuel : ℕ) (h : input.length < fuel) :
    skipComments fuel input = skipComments (input.length + 1) input :=
  skipComments_fuel fuel (input.length + 1) input h (Nat.lt_succ_self _)

theorem strncmp_P5 (buf : List ℕ) :
    strncmp buf P5 2 = 0 ↔ ∃ tail, buf = 80 :: 53 :: tail := by
  constructor
  · intro h
    cases buf with
    | nil => simp [strncmp, P5] at h
    | cons c cs =>
      by_cases hc : c = 80
      · subst hc
        cases cs with
        | nil => simp [strncmp, P5] at h
        | cons e es =>
          by_cases he : e = 53
          · subst he; exact ⟨es, rfl⟩
          · exfalso
            simp only [strncmp, P5, List.headD_cons, List.tail_cons, ne_eq, not_true_eq_false,
              if_false, he, not_false_eq_true, if_true] at h
            omega
      · exfalso
        simp only [strncmp, P5, List.headD_cons, ne_eq, hc, not_false_eq_true, if_true] at h
        omega
  · rintro ⟨tail, rfl⟩
    simp [strncmp, P5]

/-- C10 as stated fails: the file "P5x", 1 1, 255 and one data byte has the
first header token "P5x", which is not the format identifier "P5", and
`loadPGM` returns a 1x1 image holding that byte. -/
theorem loadPGM_header_counterexample :
    (pnm_read { rest := bytes "P5x\n1 1\n255\nA", good := true }).map Prod.fst
      = some (bytes "P5x") ∧
    bytes "P5x" ≠ P5 ∧
    loadPGM (fun _ => 0) [] (bytes "P5x\n1 1\n255\nA")
      = LoadResult.loaded [[65]] (image.mk 1 1 ⟨0, 0⟩ [⟨0, 0⟩]) := by
  decide

/-- C10 (amended).  `loadPGM` raises `pnm_error` for every input whose first
header token does not begin with the two characters "P5", and for every input
whose four header tokens are read and whose maximum-sample-value token, read
by `atoi`, exceeds 255. -/
theorem loadPGM_header_validation (junk : ℕ → ℕ) (s : Store ℕ) (contents : List ℕ) :
    (∀ buf1 file1, pnm_read { rest := contents, good := true } = some (buf1, file1) →
      (¬ ∃ tail, buf1 = 80 :: 53 :: tail) →
      loadPGM junk s contents = LoadResult.pnm_error) ∧
    (∀ buf1 file1 buf2 file2 buf3 file3 buf4 file4 width height maxval,
      pnm_read { rest := contents, good := true } = some (buf1, file1) →
      pnm_read file1 = some (buf2, file2) →
      pnm_read file2 = some (buf3, file3) →
      pnm_read file3 = some (buf4, file4) →
      atoi buf2 = some width → atoi buf3 = some height → atoi buf4 = some maxval →
      255 < maxval →
      loadPGM junk s contents = LoadResult.pnm_error) := by
  constructor
  · intro buf1 file1 h1 hne
    have hcmp : strncmp buf1 P5 2 ≠ 0 := fun h => hne ((strncmp_P5 buf1).mp h)
    unfold loadPGM
    simp only [h1]
    rw [if_pos hcmp]
  · intro buf1 file1 buf2 file2 buf3 file3 buf4 file4 width height maxval
      h1 h2 h3 h4 hw hh hm hgt
    unfold loadPGM
    simp only [h1]
    by_cases hcmp : strncmp buf1 P5 2 ≠ 0
    · rw [if_pos hcmp]
    · rw [if_neg hcmp]
      simp only [h2, hw, h3, hh, h4, hm]
      rw [if_pos (show maxval > UCHAR_MAX from hgt)]

theorem loadPGM_header_validation_witness :
    loadPGM (fun _ => 0) [] (bytes "P6\n1 1\n255\nA") = LoadResult.pnm_error ∧
    loadPGM (fun _ => 0) [] (bytes "P5\n1 1\n256\nA") = LoadResult.pnm_error :=
  ⟨(loadPGM_header_validation (fun _ => 0) [] (bytes "P6\n1 1\n255\nA")).1
      (bytes "P6") { rest := bytes "1 1\n255\nA", good := true } (by decide)
      (fun ⟨_, h⟩ =>
        absurd (show (bytes "P6").take 2 = [80, 53] by rw [h]; rfl) (by decide)),
   (loadPGM_header_validation (fun _ => 0) [] (bytes "P5\n1 1\n256\nA")).2
      (bytes "P5") { rest := bytes "1 1\n256\nA", good := true }
      (bytes "1") { rest := bytes "1\n256\nA", good := true }
      (bytes "1") { rest := bytes "256\nA", good := true }
      (bytes "256") { rest := bytes "A", good := true }
      1 1 256 (by decide) (by decide) (by decide) (by decide) (by decide) (by decide)
      (by decide) (by decide)⟩

/-! ## `savePGM` followed by `loadPGM` -/

theorem digit_props {c : ℕ} (h : isdigit c = true) :
    isspace c = false ∧ c ≠ 35 ∧ c ≠ 0 ∧ c ≠ 45 ∧ c ≠ 43 := by
  simp only [isdigit, Bool.and_eq_true, decide_eq_true_eq] at h
  refine ⟨?_, by omega, by omega, by omega, by omega⟩
  simp only [isspace, Bool.or_eq_false_iff, beq_eq_false_iff_ne, ne_eq, Bool.and_eq_false_iff,
    decide_eq_false_iff_not, not_le]
  omega

theorem digitsValue_append (xs ys : List ℕ) (acc : ℕ) (h : ∀ c ∈ xs, isdigit c = true) :
    digitsValue (xs ++ ys) acc = digitsValue ys (digitsValue xs acc) := by
  induction xs generalizing acc with
  | nil => rfl
  | cons c cs ih =>
    have hc : isdigit c = true := h c (List.mem_cons_self _ _)
    simp only [List.cons_append, digitsValue, hc, if_true]
    exact ih _ (fun d hd => h d (List.mem_cons_of_mem _ hd))

theorem putDecimal_spec (fuel : ℕ) : ∀ n, n < fuel →
    (∀ c ∈ putDecimal fuel n, isdigit c = true) ∧ putDecimal fuel n ≠ [] ∧
    digitsValue (putDecimal fuel n) 0 = n := by
  induction fuel with
  | zero => intro n h; exact absurd h (Nat.not_lt_zero _)
  | succ fuel ih =>
    intro n hn
    by_cases h10 : n < 10
    · have hd : isdigit (48 + n) = true := by
        simp only [isdigit, Bool.and_eq_true, decide_eq_true_eq]; omega
      simp only [putDecimal, h10, if_true]
      refine ⟨?_, by simp, ?_⟩
      · intro c hc
        rw [List.mem_singleton.mp hc]; exact hd
      · simp [digitsValue, hd]
    · have hlt : n / 10 < fuel := by omega
      obtain ⟨hdig, _, hval⟩ := ih (n / 10) hlt
      have hd : isdigit (48 + n % 10) = true := by
        simp only [isdigit, Bool.and_eq_true, decide_eq_true_eq]; omega
      simp only [putDecimal, h10, if_false]
      refine ⟨?_, by simp, ?_⟩
      · intro c hc
        rcases List.mem_append.mp hc with h | h
        · exact hdig c h
        · rw [List.mem_singleton.mp h]; exact hd
      · rw [digitsValue_append _ _ _ hdig, hval]
        simp only [digitsValue, hd, if_true]
        omega

theorem putDecimal_length (fuel : ℕ) : ∀ n k, n < 10 ^ k → 1 ≤ k →
    (putDecimal fuel n).length ≤ k := by
  induction fuel with
  | zero => intro n k _ _; simp [putDecimal]
  | succ fuel ih =>
    intro n k hn hk
    by_cases h10 : n < 10
    · simp only [putDecimal, h10, if_true]; simpa using hk
    · simp only [putDecimal, h10, if_false, List.length_append, List.length_singleton]
      obtain ⟨j, rfl⟩ : ∃ j, k = j + 1 := ⟨k - 1, by omega⟩
      have hj : 1 ≤ j := by
        rcases Nat.eq_zero_or_pos j with h | h
        · subst h; simp at hn; omega
        · exact h
      have hdiv : n / 10 < 10 ^ j := by
        rw [Nat.div_lt_iff_lt_mul (by decide)]
        rw [pow_succ] at hn; exact hn
      have := ih (n / 10) j hdiv hj
      omega

theorem takeWhile_token (p : ℕ → Bool) (tok rest : List ℕ) (sep : ℕ)
    (htok : ∀ c ∈ tok, p c = true) (hsep : p sep = false) :
    (tok ++ sep :: rest).takeWhile p = tok := by
  induction tok with
  | nil => simp [List.takeWhile, hsep]
  | cons c cs ih =>
    have hc : p c = true := htok c (List.mem_cons_self _ _)
    simp only [List.cons_append, List.takeWhile_cons, hc, if_true]
    rw [ih (fun d hd => htok d (List.mem_cons_of_mem _ hd))]

theorem pnm_read_token (tok rest : List ℕ) (sep : ℕ) (hne : tok ≠ [])
    (hns : ∀ c ∈ tok, isspace c = false) (hcm : ∀ c ∈ tok, c ≠ 35)
    (hlen : tok.length ≤ 255) (hsep : isspace sep = true) :
    pnm_read { rest := tok ++ sep :: rest, good := true } = some (tok, { rest := rest, good := true }) := by
  cases tok with
  | nil => exact absurd rfl hne
  | cons c cs =>
    have hc : isspace c = false := hns c (List.mem_cons_self _ _)
    have hc35 : c ≠ 35 := hcm c (List.mem_cons_self _ _)
    have hskip : skipComments ((c :: cs ++ sep :: rest).length + 1) (c :: cs ++ sep :: rest)
        = some (c :: cs ++ sep :: rest) := by
      simp [skipComments, List.dropWhile, hc, hc35]
    have htake : (c :: cs ++ sep :: rest).takeWhile (fun c => !isspace c) = c :: cs :=
      takeWhile_token (fun c => !isspace c) (c :: cs) rest sep
        (fun d hd => by simp [hns d hd]) (by simp [hsep])
    have htake2 : (c :: cs).take (BUF_SIZE - 1) = c :: cs :=
      List.take_of_length_le hlen
    unfold pnm_read
    simp only [if_true, hskip, htake, htake2, List.drop_left]

theorem atoi_digits (tok : List ℕ) (n : ℕ) (hne : tok ≠ [])
    (hdig : ∀ c ∈ tok, isdigit c = true) (hval : digitsValue tok 0 = n)
    (hmax : (n : ℤ) ≤ INT_MAX) : atoi tok = some (n : ℤ) := by
  have htw : tok.takeWhile (fun c => c != 0) = tok := by
    rw [List.takeWhile_eq_self_iff]
    intro c hc
    simp [(digit_props (hdig c hc)).2.2.1]
  cases tok with
  | nil => exact absurd rfl hne
  | cons c cs =>
    have hc := digit_props (hdig c (List.mem_cons_self _ _))
    have hdw : (c :: cs).dropWhile isspace = c :: cs := by
      simp [List.dropWhile, hc.1]
    have hmin : INT_MIN ≤ (n : ℤ) := by
      have : (0 : ℤ) ≤ (n : ℤ) := Int.natCast_nonneg n
      unfold INT_MIN; omega
    have key : ∀ v : ℤ, v = (n : ℤ) →
        (if INT_MIN ≤ v ∧ v ≤ INT_MAX then some v else none) = some (n : ℤ) := by
      intro v hv
      subst hv
      simp [hmin, hmax]
    unfold atoi
    simp only [htw, hdw]
    apply key
    split
    · rename_i digits heq
      injection heq with h1 _
      exact absurd h1 hc.2.2.2.1
    · rename_i digits heq
      injection heq with h1 _
      exact absurd h1 hc.2.2.2.2
    · rw [hval]

theorem ostreamInt_token (n : ℕ) (hmax : (n : ℤ) ≤ INT_MAX) :
    ostreamInt (n : ℤ) ≠ [] ∧ (∀ c ∈ ostreamInt (n : ℤ), isspace c = false) ∧
    (∀ c ∈ ostreamInt (n : ℤ), c ≠ 35) ∧ (ostreamInt (n : ℤ)).length ≤ 255 ∧
    atoi (ostreamInt (n : ℤ)) = some (n : ℤ) := by
  have he : ostreamInt (n : ℤ) = putDecimal (n + 1) n := by
    simp [ostreamInt]
  obtain ⟨hdig, hne, hval⟩ := putDecimal_spec (n + 1) n (Nat.lt_succ_self n)
  have hlen : (putDecimal (n + 1) n).length ≤ 10 := by
    apply putDecimal_length (n + 1) n 10 _ (by decide)
    have : (n : ℤ) < 10 ^ 10 := lt_of_le_of_lt hmax (by unfold INT_MAX; norm_num)
    exact_mod_cast this
  rw [he]
  exact ⟨hne, fun c hc => (digit_props (hdig c hc)).1, fun c hc => (digit_props (hdig c hc)).2.1,
    le_trans hlen (by decide), atoi_digits _ n hne hdig hval hmax⟩

theorem wf_imRef {T : Type} {s : Store T} {im : image} (hwf : image.wf s im)
    {cells : List T} (hc : s[im.data.block]? = some cells) {x y : ℕ} (hy : (y : ℤ) < im.h) :
    imRef s im x y = cells[y * im.w.toNat + x]? := by
  unfold imRef
  rw [wf_imPtr hwf hy]
  exact read_data hwf.2.2.1 hc _

theorem savePGM_eq (s : Store ℕ) (im : image) (cells : List ℕ) (hwf : image.wf s im)
    (hH : 1 ≤ im.h) (hc : s[im.data.block]? = some cells)
    (hlen : cells.length = (im.w * im.h).toNat) :
    savePGM s im = some ([80, 53] ++ 10 :: (ostreamInt im.w ++ 32 :: (ostreamInt im.h ++
      10 :: ([50, 53, 53] ++ 10 :: cells)))) := by
  have hptr : imPtr im 0 0 = some im.data := by
    have h := wf_imPtr hwf (x := 0) (y := 0) (by
      show ((0 : ℕ) : ℤ) < im.h
      simp only [Nat.cast_zero]; omega)
    rw [h]
    simp [Ptr.add]
  have hread : s.readN im.data (im.w * im.h).toNat = some cells := by
    unfold Store.readN
    simp [hc, hwf.2.2.1, hlen]
  have hP5 : bytes "P5\n" = [80, 53, 10] := by decide
  have hsp : bytes " " = [32] := by decide
  have hnl : bytes "\n" = [10] := by decide
  have h255 : ostreamInt UCHAR_MAX = [50, 53, 53] := by decide
  unfold savePGM
  simp only [hptr, image.width, image.height, hread, hP5, hsp, hnl, h255]
  simp

theorem loadPGM_saved (junk : ℕ → ℕ) (s0 : Store ℕ) (W H : ℕ) (cells : List ℕ)
    (hW : (W : ℤ) ≤ INT_MAX) (hH : (H : ℤ) ≤ INT_MAX) (hH1 : 1 ≤ H)
    (hb : (W : ℤ) * (H : ℤ) ≤ INT_MAX) (hlen : cells.length = W * H) :
    loadPGM junk s0 ([80, 53] ++ 10 :: (ostreamInt (W : ℤ) ++ 32 :: (ostreamInt (H : ℤ) ++
        10 :: ([50, 53, 53] ++ 10 :: cells)))) =
      LoadResult.loaded (s0 ++ [cells])
        (image.mk (W : ℤ) (H : ℤ) ⟨s0.length, 0⟩
          ((List.range H).map (fun i => (⟨s0.length, i * W⟩ : Ptr)))) := by
  obtain ⟨wne, wns, wcm, wlen, watoi⟩ := ostreamInt_token W hW
  obtain ⟨hne, hns, hcm, hlen', hatoi⟩ := ostreamInt_token H hH
  have h1 := pnm_read_token [80, 53]
    (ostreamInt (W : ℤ) ++ 32 :: (ostreamInt (H : ℤ) ++ 10 :: ([50, 53, 53] ++ 10 :: cells)))
    10 (by decide) (by decide) (by decide) (by decide) (by decide)
  have h2 := pnm_read_token (ostreamInt (W : ℤ))
    (ostreamInt (H : ℤ) ++ 10 :: ([50, 53, 53] ++ 10 :: cells)) 32 wne wns wcm wlen (by decide)
  have h3 := pnm_read_token (ostreamInt (H : ℤ)) ([50, 53, 53] ++ 10 :: cells) 10
    hne hns hcm hlen' (by decide)
  have h4 := pnm_read_token [50, 53, 53] cells 10
    (by decide) (by decide) (by decide) (by decide) (by decide)
  have hcmp : ¬ (strncmp [80, 53] P5 2 ≠ 0) := by decide
  have hmaxval : atoi [50, 53, 53] = some 255 := by decide
  have hle : ¬ ((255 : ℤ) > UCHAR_MAX) := by decide
  have hsize : ¬ ((W : ℤ) * (H : ℤ) < 0 ∨ (H : ℤ) < 0) := by
    have h1 : (0 : ℤ) ≤ (W : ℤ) * (H : ℤ) :=
      Int.mul_nonneg (Int.natCast_nonneg _) (Int.natCast_nonneg _)
    have h2 : (0 : ℤ) ≤ (H : ℤ) := Int.natCast_nonneg _
    omega
  have hptr : imPtr (image.mk (W : ℤ) (H : ℤ) ⟨s0.length, 0⟩
      ((List.range H).map (fun i => (⟨s0.length, i * W⟩ : Ptr)))) 0 0
      = some ⟨s0.length, 0⟩ := by
    have h0 : 0 < H := hH1
    simp [imPtr, List.getElem?_range h0, Ptr.add]
  have htake : cells.take (W * H) = cells := List.take_of_length_le (le_of_eq hlen)
  have hwrite : Store.writeN (s0 ++ [(List.range (W * H)).map junk]) ⟨s0.length, 0⟩ cells
      = some (s0 ++ [cells]) := writeN_fresh s0 _ _ (by simp [hlen])
  unfold loadPGM
  simp only [h1, if_neg hcmp, h2, watoi, h3, hatoi, h4, hmaxval, if_neg hle, if_neg hsize,
    create_eq s0 W H false junk hb, Bool.false_eq_true, if_false, hptr, toNat_mul_cast, if_true,
    htake, hwrite]

/-- C12.  For an image `im` of 8-bit samples that satisfies the class invariant,
with width `W >= 1`, height `H >= 1` (`int` values whose product is an `int`)
and arbitrary samples, `savePGM` writes a file on which `loadPGM` succeeds; the
loaded image has width `W`, height `H` and the same `W*H` samples in the same
order. -/
theorem pgm_round_trip (s s0 : Store ℕ) (im : image) (junk : ℕ → ℕ)
    (hwf : image.wf s im) (hW : 1 ≤ im.width) (hH : 1 ≤ im.height)
    (hmax : im.width * im.height ≤ INT_MAX) :
    ∃ (out samples : List ℕ) (s1 : Store ℕ) (im1 : image),
      savePGM s im = some out ∧
      s.readN im.data (im.width * im.height).toNat = some samples ∧
      loadPGM junk s0 out = LoadResult.loaded s1 im1 ∧
      im1.width = im.width ∧ im1.height = im.height ∧ image.wf s1 im1 ∧
      s1.readN im1.data (im.width * im.height).toNat = some samples ∧
      ∀ x y : ℕ, (x : ℤ) < im.width → (y : ℤ) < im.height →
        (imRef s im x y).isSome = true ∧ imRef s1 im1 x y = imRef s im x y := by
  have hwf0 := hwf
  obtain ⟨hw, hh, hoff, ⟨cells, hc, hlen⟩, _⟩ := hwf
  obtain ⟨W, hWe⟩ := Int.eq_ofNat_of_zero_le hw
  obtain ⟨H, hHe⟩ := Int.eq_ofNat_of_zero_le hh
  simp only [image.width, image.height] at hW hH hmax ⊢
  have hlenN : cells.length = W * H := by rw [hlen, hWe, hHe, toNat_mul_cast]
  have hW1 : 1 ≤ W := by rw [hWe] at hW; exact_mod_cast hW
  have hH1 : 1 ≤ H := by rw [hHe] at hH; exact_mod_cast hH
  have hprod : (W : ℤ) * (H : ℤ) ≤ INT_MAX := by rw [← hWe, ← hHe]; exact hmax
  have hWmax : (W : ℤ) ≤ INT_MAX := by
    have : W ≤ W * H := Nat.le_mul_of_pos_right W hH1
    have : (W : ℤ) ≤ (W : ℤ) * (H : ℤ) := by exact_mod_cast this
    exact le_trans this hprod
  have hHmax : (H : ℤ) ≤ INT_MAX := by
    have : H ≤ W * H := Nat.le_mul_of_pos_left H hW1
    have : (H : ℤ) ≤ (W : ℤ) * (H : ℤ) := by exact_mod_cast this
    exact le_trans this hprod
  have hsave := savePGM_eq s im cells hwf0 hH hc hlen
  have hload := loadPGM_saved junk s0 W H cells hWmax hHmax hH1 hprod hlenN
  rw [hWe, hHe] at hsave
  have hwf1 : image.wf (s0 ++ [cells])
      (image.mk (W : ℤ) (H : ℤ) ⟨s0.length, 0⟩
        ((List.range H).map (fun i => (⟨s0.length, i * W⟩ : Ptr)))) :=
    wf_fresh s0 W H cells hlenN hprod
  refine ⟨_, cells, _, _, hsave, ?_, hload, hWe.symm, hHe.symm, hwf1, ?_, ?_⟩
  · unfold Store.readN
    simp [hc, hoff, hlen]
  · rw [hWe, hHe, toNat_mul_cast, ← hlenN]
    exact readN_last s0 cells
  · intro x y hx hy
    have hlt : y * im.w.toNat + x < cells.length := by
      rw [hlen]; exact wf_index_lt hwf0 hx hy
    have r0 : imRef s im x y = cells[y * im.w.toNat + x]? := wf_imRef hwf0 hc hy
    have r1 := wf_imRef hwf1 (getElem?_append_last s0 cells) (x := x) (y := y)
      (by rw [hHe] at hy; exact hy)
    refine ⟨?_, ?_⟩
    · rw [r0, List.getElem?_eq_getElem hlt]; rfl
    · rw [r1, r0, hWe]

theorem pgm_round_trip_witness :
    ∃ (out samples : List ℕ) (s1 : Store ℕ) (im1 : image),
      savePGM demoStore demoImage = some out ∧
      demoStore.readN demoImage.data (demoImage.width * demoImage.height).toNat
        = some samples ∧
      loadPGM (fun _ => 0) [] out = LoadResult.loaded s1 im1 ∧
      im1.width = demoImage.width ∧ im1.height = demoImage.height ∧ image.wf s1 im1 ∧
      s1.readN im1.data (demoImage.width * demoImage.height).toNat = some samples ∧
      ∀ x y : ℕ, (x : ℤ) < demoImage.width → (y : ℤ) < demoImage.height →
        (imRef demoStore demoImage x y).isSome = true ∧
        imRef s1 im1 x y = imRef demoStore demoImage x y :=
  pgm_round_trip demoStore [] demoImage (fun _ => 0)
    ⟨by decide, by decide, rfl, ⟨[1, 2, 3, 4], rfl, rfl⟩, rfl, by decide⟩
    (by decide) (by decide) (by decide)

end DenseStereo
